import Mathlib

/-!
# Olive render processor

A shallow embedding of `app/render/renderprocessor.cpp`: decoder resolution, the still-image
cache with its pending list (one call alone, and two calls interleaved at the mutex), the
shader cache, ticket dispatch in `Run`, the assembly of audio blocks in `GenerateBlockTable`,
the disk frame cache lookup and the per-sample loop of `ProcessSamples`.  Shared pointers
are modelled as `Option` (a null pointer is `none`), object identity as a natural number,
exact `rational` times as `ℚ`, a `double` by its 64 bits, and the collaborators the
processor only calls (decoder, GPU context, graph traversal, disk cache, double arithmetic)
as function parameters.
-/

set_option autoImplicit false

namespace Olive

/-! ## Data model -/

/-- Exact fractional time, the `rational` class of the source. -/
abbrev rational := ℚ

/-- Video parameters: `VideoParams` of the source, with the accessors the processor uses. -/
structure VideoParams where
  width : Int
  height : Int
  format : Nat
  divider : Int
  time_base : rational
deriving DecidableEq

/-- A source stream, `Stream`/`VideoStream`; `ptr` is the address `stream.get()` used as cache key. -/
structure Stream where
  ptr : Nat
  /-- The decoder kind `stream->footage()->decoder()`. -/
  decoder_id : Nat
  colorspace : Nat
  premultiplied_alpha : Bool
  /-- Whether `video_type() == VideoStream::kVideoTypeStill`. -/
  is_still : Bool
deriving DecidableEq

/-- A decoder object; `uid` is its identity as an instance. -/
structure Decoder where
  uid : Nat
  kind : Nat
deriving DecidableEq

/-- A CPU frame: `Frame`. -/
structure Frame where
  timestamp : rational
  params : VideoParams
  data : List Nat
deriving DecidableEq

/-- A GPU texture: `Texture`; `uid` is its identity. -/
structure Texture where
  uid : Nat
  params : VideoParams
  pixels : List Nat
deriving DecidableEq

/-! ## Decoder cache -/

/-- Modelled from the spec: the decoded-media cache (`DecoderCache`, a hash from stream
address to decoder pointer, declared outside the given sources) "maps a source stream
identity to an open decoder instance".  `value` is the lookup, null when the key is absent. -/
def DecoderCache.value (c : List (Nat × Decoder)) (key : Nat) : Option Decoder :=
  match c with
  | [] => none
  | (k, d) :: rest => if k = key then some d else DecoderCache.value rest key

/-- Modelled from the spec: `insert` of the decoded-media cache, "on success insert it into
the cache"; an existing binding of the key is replaced. -/
def DecoderCache.insert (c : List (Nat × Decoder)) (key : Nat) (d : Decoder) :
    List (Nat × Decoder) :=
  (key, d) :: c.filter (fun p => p.1 ≠ key)

/-- The decoder cache together with what the processor did to the decoder collaborator:
`created` counts the decoders constructed by `Decoder::CreateFromID` (it also numbers the
instances), `opened` lists the `Open` calls as (decoder uid, stream address). -/
structure DecoderState where
  cache : List (Nat × Decoder)
  created : Nat
  opened : List (Nat × Nat)
deriving DecidableEq

/-- Modelled from the spec: `Decoder::CreateFromID` (outside the given sources) "construct[s] a
decoder appropriate to the stream's declared decoder kind"; the new instance takes the next
free uid. -/
def Decoder.CreateFromID (fresh : Nat) (id : Nat) : Decoder :=
  { uid := fresh, kind := id }

/-- `RenderProcessor::ResolveDecoderFromInput`.  `Open` is the decoder collaborator's
`Open(stream) -> bool`; a null `StreamPtr` is `none`. -/
def ResolveDecoderFromInput (Open : Decoder → Stream → Bool) (s : DecoderState)
    (stream : Option Stream) : Option Decoder × DecoderState :=
  match stream with
  | none => (none, s)
  | some st =>
    match DecoderCache.value s.cache st.ptr with
    | some decoder => (some decoder, s)
    | none =>
      let decoder := Decoder.CreateFromID s.created st.decoder_id
      let s1 : DecoderState :=
        { s with created := s.created + 1, opened := s.opened ++ [(decoder.uid, st.ptr)] }
      if Open decoder st then
        (some decoder, { s1 with cache := DecoderCache.insert s1.cache st.ptr decoder })
      else
        (none, s1)

/-! ## Still-image cache -/

/-- `StillImageCache::Entry`: the initialiser list of `want_entry` gives the field order. -/
structure Entry where
  texture : Option Texture
  stream : Nat
  colorspace : Nat
  alpha_is_associated : Bool
  divider : Int
  time : rational
deriving DecidableEq

/-- Modelled from the spec: `StillImageCache::CompareEntryMetadata` (outside the given
sources): "two entries are equal for lookup purposes iff all fields except the texture
handle match". -/
def StillImageCache.CompareEntryMetadata (a b : Entry) : Bool :=
  decide (a.stream = b.stream) && decide (a.colorspace = b.colorspace)
    && decide (a.alpha_is_associated = b.alpha_is_associated)
    && decide (a.divider = b.divider) && decide (a.time = b.time)

/-- The realized-still cache: committed entries and the parallel pending list. -/
structure StillImageCache where
  entries : List Entry
  pending : List Entry
deriving DecidableEq

/-- Modelled from the spec: `PushEntry` (outside the given sources) "insert[s] the committed
entry". -/
def StillImageCache.PushEntry (c : StillImageCache) (e : Entry) : StillImageCache :=
  { c with entries := c.entries ++ [e] }

/-- Modelled from the spec: `PushPending` (outside the given sources) "insert[s] a pending
placeholder for this fingerprint". -/
def StillImageCache.PushPending (c : StillImageCache) (e : Entry) : StillImageCache :=
  { c with pending := c.pending ++ [e] }

/-- Removal of the first element matching the fingerprint of `e`. -/
def removeFirstMatch (e : Entry) : List Entry → List Entry
  | [] => []
  | x :: rest =>
    if StillImageCache.CompareEntryMetadata x e then rest else x :: removeFirstMatch e rest

/-- Modelled from the spec: `RemovePending` (outside the given sources) "remove[s] the pending
placeholder", the one entry of the pending list with this fingerprint. -/
def StillImageCache.RemovePending (c : StillImageCache) (e : Entry) : StillImageCache :=
  { c with pending := removeFirstMatch e c.pending }

/-- Whether the pending list holds a placeholder with the fingerprint of `e`. -/
def StillImageCache.hasPending (c : StillImageCache) (e : Entry) : Bool :=
  c.pending.any (fun x => StillImageCache.CompareEntryMetadata e x)

/-- The collaborators `ProcessVideoFootage` calls. -/
structure FootageEnv where
  /-- `Decoder::Open`. -/
  Open : Decoder → Stream → Bool
  /-- `Decoder::RetrieveVideo(time, divider)`; null frame is `none`. -/
  RetrieveVideo : Decoder → rational → Int → Option Frame
  /-- `ColorProcessor::GenerateID(color_manager, colorspace, scene_linear)`. -/
  GenerateID : Nat → Nat → Nat
  /-- `Renderer::BlitColorManaged`: the pixels left in the destination texture. -/
  BlitColorManaged : Nat → Nat → Texture → Texture → List Nat

/-- The state `ProcessVideoFootage` reads and writes: the still cache, the decoder cache and
the number of textures the render context has created (it numbers the texture instances). -/
structure FootageState where
  still : StillImageCache
  decoders : DecoderState
  textures : Nat
deriving DecidableEq

/-- The fingerprint `want_entry` built at the head of `ProcessVideoFootage`. -/
def wantEntry (env : FootageEnv) (colormanager : Nat) (video_params : VideoParams)
    (stream : Stream) (input_time : rational) : Entry :=
  { texture := none
    stream := stream.ptr
    colorspace := env.GenerateID colormanager stream.colorspace
    alpha_is_associated := stream.premultiplied_alpha
    divider := video_params.divider
    time := if stream.is_still then 0 else input_time }

/-- The polling loop `while (!value) { unlock; msleep(1); lock; value = e.texture; }` run by one
thread alone: `e` is the element the `foreach` holds, each round reads its texture field.
`none` when the loop has not ended after `fuel` rounds. -/
def waitForPending (e : Entry) : Nat → Option Texture
  | 0 => none
  | fuel + 1 =>
    match e.texture with
    | some t => some t
    | none => waitForPending e fuel

/-- `RenderProcessor::ProcessVideoFootage`, one call run without interleaving.  The result is
`none` when the pending wait loop has not ended within `fuel` rounds; otherwise the returned
texture pointer and the state left behind. -/
def ProcessVideoFootage (env : FootageEnv) (colormanager : Nat) (video_params : VideoParams)
    (fuel : Nat) (s : FootageState) (stream : Stream) (input_time : rational) :
    Option (Option Texture × FootageState) :=
  let want_entry := wantEntry env colormanager video_params stream input_time
  -- scan of the committed entries, stopping at the first fingerprint match
  let value : Option Texture :=
    match s.still.entries.find? (fun e => StillImageCache.CompareEntryMetadata want_entry e) with
    | some e => e.texture
    | none => none
  -- scan of the pending list when nothing was found
  let waited : Option (Option Texture) :=
    match value with
    | some t => some (some t)
    | none =>
      match s.still.pending.find? (fun e => StillImageCache.CompareEntryMetadata want_entry e) with
      | some e => (waitForPending e fuel).map some
      | none => some none
  match waited with
  | none => none
  | some (some t) => some (some t, s)
  | some none =>
    let still1 := s.still.PushPending want_entry
    let (decoder, decoders1) := ResolveDecoderFromInput env.Open s.decoders (some stream)
    match decoder with
    | none => some (none, { s with still := still1, decoders := decoders1 })
    | some d =>
      match env.RetrieveVideo d input_time video_params.divider with
      | none => some (none, { s with still := still1, decoders := decoders1 })
      | some frame =>
        let unmanaged_texture : Texture :=
          { uid := s.textures, params := frame.params, pixels := frame.data }
        let managed_params := { frame.params with format := video_params.format }
        let value0 : Texture := { uid := s.textures + 1, params := managed_params, pixels := [] }
        let value1 : Texture :=
          { value0 with
            pixels := env.BlitColorManaged colormanager stream.colorspace unmanaged_texture value0 }
        let still2 := still1.RemovePending want_entry
        let still3 := still2.PushEntry { want_entry with texture := some value1 }
        some (some value1, { still := still3, decoders := decoders1, textures := s.textures + 2 })

/-! ## Shader cache -/

/-- A node as `ProcessShader` sees it: its id and its shader sources by logical id. -/
structure ShaderNode where
  id : String
  GetShaderCode : String → String

/-- `ShaderJob`: the fields of `job/shaderjob.h` that the processor reads. -/
structure ShaderJob where
  shader_id : String
  iterations : Int
  iterative_input : String

/-- `ShaderJob::GetShaderID`. -/
def ShaderJob.GetShaderID (job : ShaderJob) : String := job.shader_id

/-- Modelled from the spec: the shader cache (`ShaderCache`, declared outside the given
sources) "maps a compiled-shader fingerprint to an opaque compiled-shader handle"; a null
`QVariant` is `none`. -/
def ShaderCache.value (c : List (String × Nat)) (key : String) : Option Nat :=
  match c with
  | [] => none
  | (k, v) :: rest => if k = key then some v else ShaderCache.value rest key

/-- The shader cache, the sources handed to `Renderer::CreateNativeShader` so far, and the
number of textures the render context has created. -/
structure ShaderState where
  cache : List (String × Nat)
  compiled : List String
  textures : Nat
deriving DecidableEq

/-- The key `QStringLiteral("%1:%2").arg(node->id(), job.GetShaderID())`. -/
def full_shader_id (node : ShaderNode) (job : ShaderJob) : String :=
  node.id ++ ":" ++ job.GetShaderID

/-- `RenderProcessor::ProcessShader`.  `CreateNativeShader` is the backend compilation (null
handle `none`), `BlitToTexture` gives the pixels the shader run leaves in the destination. -/
def ProcessShader (CreateNativeShader : String → Option Nat)
    (BlitToTexture : Nat → ShaderJob → Texture → List Nat) (video_params : VideoParams)
    (s : ShaderState) (node : ShaderNode) (job : ShaderJob) : Option Texture × ShaderState :=
  let key := full_shader_id node job
  let cached := ShaderCache.value s.cache key
  let compile : Option Nat × ShaderState :=
    match cached with
    | some sh => (some sh, s)
    | none =>
      let code := node.GetShaderCode job.GetShaderID
      (CreateNativeShader code, { s with compiled := s.compiled ++ [code] })
  match compile with
  | (none, s1) => (none, s1)
  | (some shader, s1) =>
    let destination : Texture := { uid := s1.textures, params := video_params, pixels := [] }
    let destination1 := { destination with pixels := BlitToTexture shader job destination }
    (some destination1, { s1 with textures := s1.textures + 1 })

/-! ## Tickets and `Run` -/

/-- Audio parameters: `AudioParams` of the source. -/
structure AudioParams where
  sample_rate : Int
  channel_count : Nat
deriving DecidableEq

/-- A sample buffer: `SampleBuffer`.  One list element stands for one sample index (the
samples of all channels at that index); `0` is silence. -/
structure SampleBuffer where
  audio_params : AudioParams
  data : List Int
deriving DecidableEq

/-- `SampleBuffer::sample_count`. -/
def SampleBuffer.sample_count (b : SampleBuffer) : Int := b.data.length

/-- A time range `[in, out)`: `TimeRange`, with the source's member names `in_` and `out_`. -/
structure TimeRange where
  in_ : rational
  out_ : rational
deriving DecidableEq

/-- Modelled from the spec: `TimeRange::length` (outside the given sources), the extent of
the range `[in, out)`. -/
def TimeRange.length (r : TimeRange) : rational := r.out_ - r.in_

/-- The payloads a `QVariant` carries in the processor; a null shared pointer is `none`. -/
inductive QVariant where
  | null
  | bool (b : Bool)
  | frame (f : Option Frame)
  | texture (t : Option Texture)
  | samples (b : Option SampleBuffer)
  | other (n : Nat)
deriving DecidableEq

/-- `QVariant::value<TexturePtr>()`. -/
def QVariant.toTexture : QVariant → Option Texture
  | .texture t => t
  | _ => none

/-- `QVariant::value<SampleBufferPtr>()`. -/
def QVariant.toSamples : QVariant → Option SampleBuffer
  | .samples b => b
  | _ => none

/-- `NodeParam::DataType`, the value-kind tag of a table entry. -/
inductive DataType where
  | kTexture
  | kSamples
  | kOther (n : Nat)
deriving DecidableEq

/-- One entry of a value table: kind tag, value and producing node. -/
structure NodeValue where
  type : DataType
  data : QVariant
  source : Nat
deriving DecidableEq

/-- Modelled from the spec: `NodeValueTable` (outside the given sources), "an ordered
multi-map from a value-kind tag to a value plus the producing node". -/
abbrev NodeValueTable := List NodeValue

/-- Modelled from the spec: `NodeValueTable::Get`, the read of the most recently pushed value
with the tag; a null variant when there is none. -/
def NodeValueTable.Get (t : NodeValueTable) (ty : DataType) : QVariant :=
  match t.reverse.find? (fun v => decide (v.type = ty)) with
  | some v => v.data
  | none => QVariant.null

/-- Removal of the last entry with the tag. -/
def NodeValueTable.eraseLast (t : NodeValueTable) (ty : DataType) : NodeValueTable :=
  match t.reverse.findIdx? (fun v => decide (v.type = ty)) with
  | some i => (t.reverse.eraseIdx i).reverse
  | none => t

/-- Modelled from the spec: `NodeValueTable::Take`, the "destructive read": the value `Get`
returns, and the table without that entry. -/
def NodeValueTable.Take (t : NodeValueTable) (ty : DataType) : QVariant × NodeValueTable :=
  (NodeValueTable.Get t ty, NodeValueTable.eraseLast t ty)

/-- Modelled from the spec: `NodeValueTable::Push`, appending one entry. -/
def NodeValueTable.Push (t : NodeValueTable) (ty : DataType) (data : QVariant) (source : Nat) :
    NodeValueTable :=
  t ++ [{ type := ty, data := data, source := source }]

/-- Modelled from the spec: the static `NodeValueTable::Merge`, "merge-by-concatenation" of
the given tables into a new table, which is its return value. -/
def NodeValueTable.Merge (tables : List NodeValueTable) : NodeValueTable :=
  tables.flatten

/-- `RenderManager::TicketType`: the three kinds `Run` names, and any other value. -/
inductive TicketType where
  | kTypeVideo
  | kTypeAudio
  | kTypeVideoDownload
  | kOther (n : Nat)
deriving DecidableEq

/-- `QSize`. -/
structure QSize where
  wd : Int
  ht : Int
deriving DecidableEq

/-- `QSize::isNull`: both the width and the height are 0. -/
def QSize.isNull (s : QSize) : Bool := decide (s.wd = 0) && decide (s.ht = 0)

/-- `ViewerOutput`: the parameters and the two inputs the processor reads. -/
structure ViewerOutput where
  video_params : VideoParams
  audio_params : AudioParams
  texture_input : Nat
  samples_input : Nat
deriving DecidableEq

/-- The calls that change a ticket's terminal state. -/
inductive TicketEvent where
  | Start
  | Finish (result : QVariant) (cancelled : Bool)
  | Cancel
deriving DecidableEq

/-- A render ticket: the properties `Run` reads (the property named time holds a `rational`
for a video ticket and a `TimeRange` for an audio ticket) and the record of the
`Start`/`Finish`/`Cancel` calls made on it. -/
structure RenderTicket where
  type : TicketType
  viewer : ViewerOutput
  time : rational
  time_range : TimeRange
  size : QSize
  cache : Nat
  frame : Option Frame
  hash : List Nat
  events : List TicketEvent
deriving DecidableEq

/-- The collaborators `Run` calls. -/
structure RunEnv where
  /-- Graph evaluation `ProcessInput(input, range)`. -/
  ProcessInput : Nat → TimeRange → NodeValueTable
  /-- `Frame::allocate`: the buffer as allocated, contents unspecified. -/
  allocate : VideoParams → List Nat
  /-- `Renderer::DownloadFromTexture`: the frame buffer after the download. -/
  DownloadFromTexture : Texture → Frame → List Nat
  /-- `FrameHashCache::SaveCacheFrame(hash, frame)` on the cache at the given address. -/
  SaveCacheFrame : Nat → List Nat → Option Frame → Bool
  /-- `IsCancelled()` as read when the ticket is finished. -/
  IsCancelled : Bool

/-- `memset(data, value, n)`: the first `n` bytes are overwritten. -/
def memset (data : List Nat) (value : Nat) (n : Nat) : List Nat :=
  List.replicate (min n data.length) value ++ data.drop n

/-- `Frame::allocated_size`: the size of the buffer `allocate` made. -/
def Frame.allocated_size (f : Frame) : Nat := f.data.length

/-- The video branch of `Run` up to the finished frame. -/
def RunVideoFrame (env : RunEnv) (ticket : RenderTicket) : Frame :=
  let viewer := ticket.viewer
  let time := ticket.time
  let table := env.ProcessInput viewer.texture_input
    { in_ := time, out_ := time + viewer.video_params.time_base }
  let texture := (NodeValueTable.Get table DataType.kTexture).toTexture
  let frame_params := viewer.video_params
  let frame_size := ticket.size
  let frame_params :=
    if !frame_size.isNull then
      { frame_params with width := frame_size.wd, height := frame_size.ht }
    else frame_params
  let frame : Frame :=
    { timestamp := time, params := frame_params, data := env.allocate frame_params }
  match texture with
  | none => { frame with data := memset frame.data 0 frame.allocated_size }
  | some tex => { frame with data := env.DownloadFromTexture tex frame }

/-- `RenderProcessor::Run`: the ticket after the call. -/
def Run (env : RunEnv) (ticket : RenderTicket) : RenderTicket :=
  let type := ticket.type
  let ticket := { ticket with events := ticket.events ++ [TicketEvent.Start] }
  match type with
  | TicketType.kTypeVideo =>
    let frame := RunVideoFrame env ticket
    { ticket with
      events := ticket.events ++ [TicketEvent.Finish (QVariant.frame (some frame)) env.IsCancelled] }
  | TicketType.kTypeAudio =>
    let viewer := ticket.viewer
    let time := ticket.time_range
    let table := env.ProcessInput viewer.samples_input time
    { ticket with
      events := ticket.events ++
        [TicketEvent.Finish (NodeValueTable.Get table DataType.kSamples) env.IsCancelled] }
  | TicketType.kTypeVideoDownload =>
    let cache := ticket.cache
    let frame := ticket.frame
    let hash := ticket.hash
    { ticket with
      events := ticket.events ++
        [TicketEvent.Finish (QVariant.bool (env.SaveCacheFrame cache hash frame)) false] }
  | TicketType.kOther _ =>
    { ticket with events := ticket.events ++ [TicketEvent.Cancel] }

/-! ## Audio block assembly -/

/-- Modelled from the spec: `AudioParams::time_to_samples` (outside the given sources), the
number of whole samples in a time: floor(time * sample_rate). -/
def AudioParams.time_to_samples (p : AudioParams) (time : rational) : Int :=
  ⌊time * (p.sample_rate : ℚ)⌋

/-- Modelled from the spec: `SampleBuffer::CreateAllocated(params, nb_samples)` (outside the
given sources): a buffer of `nb_samples` samples whose contents are whatever the allocation
left there (`junk`). -/
def SampleBuffer.CreateAllocated (junk : Int) (p : AudioParams) (nb_samples : Int) :
    SampleBuffer :=
  { audio_params := p, data := List.replicate nb_samples.toNat junk }

/-- Modelled from the spec: `SampleBuffer::fill` (outside the given sources), the "zero-fill"
when called with 0: every sample becomes the value. -/
def SampleBuffer.fill (b : SampleBuffer) (value : Int) : SampleBuffer :=
  { b with data := List.replicate b.data.length value }

/-- Modelled from the spec: `SampleBuffer::set(data, sample_offset, sample_length)` (outside
the given sources) "cop[ies] samples from the block buffer into the destination buffer at
the sample offset".  The copy is defined when it stays inside both buffers; `none` otherwise. -/
def SampleBuffer.set (dst : SampleBuffer) (src : List Int) (sample_offset sample_length : Int) :
    Option SampleBuffer :=
  if 0 ≤ sample_offset ∧ 0 ≤ sample_length ∧ sample_length ≤ src.length
      ∧ sample_offset + sample_length ≤ dst.data.length then
    some { dst with
      data := dst.data.take sample_offset.toNat ++ src.take sample_length.toNat
        ++ dst.data.drop (sample_offset.toNat + sample_length.toNat) }
  else none

/-- `qIsNull(double)`: the value is zero. -/
def qIsNull (d : ℚ) : Bool := decide (d = 0)

/-- `qFuzzyCompare(double, double)`: `qAbs(p1 - p2) * 1000000000000. <= qMin(qAbs(p1), qAbs(p2))`. -/
def qFuzzyCompare (p1 p2 : ℚ) : Bool :=
  decide (|p1 - p2| * 1000000000000 ≤ min |p1| |p2|)

/-- A timeline block: its extent and the state of its speed input. -/
structure Block where
  uid : Nat
  in_ : rational
  out_ : rational
  /-- The result of `speed_input()->is_keyframing()`. -/
  speed_is_keyframing : Bool
  /-- The result of `speed_input()->is_connected()`. -/
  speed_is_connected : Bool
  /-- The result of `speed_input()->get_standard_value().toDouble()`. -/
  speed_standard_value : ℚ
deriving DecidableEq

/-- `Timeline::TrackType`. -/
inductive TrackType where
  | kTrackTypeVideo
  | kTrackTypeAudio
  | kTrackTypeSubtitle
deriving DecidableEq

/-- A timeline track: `TrackOutput`. -/
structure TrackOutput where
  uid : Nat
  track_type : TrackType
  blocks : List Block
deriving DecidableEq

/-- Modelled from the spec: `TrackOutput::BlocksAtTimeRange` (outside the given sources), "every
content block overlapping the range", in the track's order: the blocks with
`in < range.out` and `out > range.in`. -/
def TrackOutput.BlocksAtTimeRange (track : TrackOutput) (range : TimeRange) : List Block :=
  track.blocks.filter (fun b => decide (b.in_ < range.out_) && decide (range.in_ < b.out_))

/-- The record appended to the ticket's waveform list. -/
structure RenderedWaveform where
  track : Nat
  waveform : List Int
  range : TimeRange
deriving DecidableEq

/-- The collaborators and ticket properties `GenerateBlockTable` uses. -/
structure BlockEnv where
  /-- The viewer's audio parameters. -/
  audio_params : AudioParams
  /-- Graph evaluation `GenerateTable(block, range)`. -/
  GenerateTable : Block → TimeRange → NodeValueTable
  /-- `SampleBuffer::speed(value)`, the time-stretch. -/
  speed : ℚ → SampleBuffer → SampleBuffer
  /-- `NodeTraverser::GenerateBlockTable`, the path of the other track types. -/
  BaseGenerateBlockTable : TrackOutput → TimeRange → NodeValueTable
  /-- The ticket property named waveforms read with `toBool`. -/
  waveforms_flag : Bool
  /-- The ticket property named waveforms read as a list of records. -/
  waveforms : List RenderedWaveform
  /-- `AudioVisualWaveform::OverwriteSamples(buffer, sample_rate)`, the visual summary. -/
  OverwriteSamples : Nat → SampleBuffer → Int → List Int
  /-- The contents a fresh allocation holds. -/
  junk : Int

/-- The sub-range `range_for_block` of the loop body. -/
def range_for_block (b : Block) (range : TimeRange) : TimeRange :=
  { in_ := max b.in_ range.in_, out_ := min b.out_ range.out_ }

/-- The `destination_offset` of the loop body. -/
def destination_offset (p : AudioParams) (b : Block) (range : TimeRange) : Int :=
  p.time_to_samples ((range_for_block b range).in_ - range.in_)

/-- The `max_dest_sz` of the loop body. -/
def max_dest_sz (p : AudioParams) (b : Block) (range : TimeRange) : Int :=
  p.time_to_samples (range_for_block b range).length

/-- The speed handling of the loop body: what `samples_from_this_block` holds before the copy. -/
def applySpeed (env : BlockEnv) (b : Block) (samples : SampleBuffer) : SampleBuffer :=
  if b.speed_is_keyframing || b.speed_is_connected then
    samples
  else
    let speed_value := b.speed_standard_value
    if qIsNull speed_value then
      samples.fill 0
    else if !qFuzzyCompare speed_value 1 then
      env.speed speed_value samples
    else
      samples

/-- One round of the `foreach` over the active blocks: the destination buffer and the merged
table after it; `none` when the copy leaves a buffer. -/
def blockStep (env : BlockEnv) (range : TimeRange) (acc : SampleBuffer × NodeValueTable)
    (b : Block) : Option (SampleBuffer × NodeValueTable) :=
  let block_range_buffer := acc.1
  let merged_table := acc.2
  let sub := range_for_block b range
  let offset := destination_offset env.audio_params b range
  let max_sz := max_dest_sz env.audio_params b range
  let table := env.GenerateTable b sub
  let taken := NodeValueTable.Take table DataType.kSamples
  let table := taken.2
  match taken.1.toSamples with
  | none => some acc
  | some samples_from_this_block =>
    let samples_from_this_block := applySpeed env b samples_from_this_block
    let copy_length := min max_sz samples_from_this_block.sample_count
    match block_range_buffer.set samples_from_this_block.data offset copy_length with
    | none => none
    | some block_range_buffer =>
      -- `NodeValueTable::Merge({merged_table, table});` the returned table is dropped
      let _ := NodeValueTable.Merge [merged_table, table]
      some (block_range_buffer, merged_table)

/-- The `foreach` over the active blocks. -/
def blockLoop (env : BlockEnv) (range : TimeRange) :
    List Block → SampleBuffer × NodeValueTable → Option (SampleBuffer × NodeValueTable)
  | [], acc => some acc
  | b :: rest, acc =>
    match blockStep env range acc b with
    | none => none
    | some acc1 => blockLoop env range rest acc1

/-- What `GenerateBlockTable` leaves: the returned table and the ticket's waveform list. -/
structure BlockTableResult where
  table : NodeValueTable
  waveforms : List RenderedWaveform
deriving DecidableEq

/-- `RenderProcessor::GenerateBlockTable`; `none` when a copy leaves a buffer. -/
def GenerateBlockTable (env : BlockEnv) (track : TrackOutput) (range : TimeRange) :
    Option BlockTableResult :=
  if track.track_type = TrackType.kTrackTypeAudio then
    let audio_params := env.audio_params
    let active_blocks := track.BlocksAtTimeRange range
    let block_range_buffer :=
      SampleBuffer.CreateAllocated env.junk audio_params (audio_params.time_to_samples range.length)
    let block_range_buffer := block_range_buffer.fill 0
    let merged_table : NodeValueTable := []
    match blockLoop env range active_blocks (block_range_buffer, merged_table) with
    | none => none
    | some (block_range_buffer, merged_table) =>
      let waveform_list :=
        if env.waveforms_flag then
          env.waveforms ++
            [{ track := track.uid
               waveform := env.OverwriteSamples audio_params.channel_count block_range_buffer
                 audio_params.sample_rate
               range := range }]
        else env.waveforms
      some { table := NodeValueTable.Push merged_table DataType.kSamples
                        (QVariant.samples (some block_range_buffer)) track.uid
             waveforms := waveform_list }
  else
    some { table := env.BaseGenerateBlockTable track range, waveforms := env.waveforms }

/-! ## Disk frame cache lookup -/

/-- Modelled from the spec: `Frame::width` (outside the given sources), the frame's declared
width. -/
def Frame.width (f : Frame) : Int := f.params.width

/-- Modelled from the spec: `Frame::height` (outside the given sources), the frame's declared
height. -/
def Frame.height (f : Frame) : Int := f.params.height

/-- The collaborators `GetCachedFrame` calls. -/
structure CachedFrameEnv where
  /-- `RenderManager::Hash(node, video_params, time)`. -/
  Hash : String → VideoParams → rational → List Nat
  /-- `FrameHashCache::LoadCacheFrame(path, hash)`; a null frame is `none`. -/
  LoadCacheFrame : String → List Nat → Option Frame

/-- `RenderProcessor::GetCachedFrame`.  `cache` is the ticket property of that name read as a
string, `textures` the number of textures the render context has created; the result is the
returned variant and the new number of textures. -/
def GetCachedFrame (env : CachedFrameEnv) (cache : String) (video_params : VideoParams)
    (textures : Nat) (node_id : String) (time : rational) : QVariant × Nat :=
  if !cache.isEmpty && decide (node_id = "org.olivevideoeditor.Olive.videoinput") then
    let hash := env.Hash node_id video_params time
    match env.LoadCacheFrame cache hash with
    | some f =>
      let p := f.params
      let p := { p with width := f.width * video_params.divider }
      let p := { p with height := f.height * video_params.divider }
      let p := { p with divider := video_params.divider }
      let f := { f with params := p }
      let texture : Texture := { uid := textures, params := f.params, pixels := f.data }
      (QVariant.texture (some texture), textures + 1)
    | none => (QVariant.null, textures)
  else
    (QVariant.null, textures)

/-- The shape every still cache the processor builds has: each committed entry carries a
texture (`PushEntry` is only called with the texture just made) and no pending placeholder
does (`PushPending` is only called with the texture field null). -/
def StillImageCache.wellFormed (c : StillImageCache) : Bool :=
  c.entries.all (fun e => e.texture.isSome) && c.pending.all (fun e => e.texture.isNone)

/-- The `copy_length` of the loop body, for a block buffer of `sample_count` samples. -/
def copy_length (p : AudioParams) (b : Block) (range : TimeRange) (sample_count : Int) : Int :=
  min (max_dest_sz p b range) sample_count

/-! ## Two concurrent `ProcessVideoFootage` calls

The still-cache mutex makes every stretch of `ProcessVideoFootage` between a `lock()` and the
next `unlock()` atomic with respect to the other callers.  A call is therefore a sequence of
atomic steps, and a concurrent run is an interleaving of the steps of the calls. -/

/-- Where a call stands while it does not hold the still-cache mutex. -/
inductive CallState where
  /-- Before the first `lock()`. -/
  | start
  /-- In the wait loop, asleep in `msleep(1)`; `e` is the matching element of the copy of the
  pending list that `foreach` iterates. -/
  | waiting (e : Entry)
  /-- Placeholder pushed and mutex released, before the decode. -/
  | producing
  /-- Returned with this texture pointer. -/
  | returned (value : Option Texture)
deriving DecidableEq

/-- From `lock()` to the first `unlock()`: the scan of the committed entries, then of the
pending list, then either the return, the first sleep of the wait loop, or `PushPending`. -/
def lookupStep (env : FootageEnv) (colormanager : Nat) (video_params : VideoParams)
    (s : FootageState) (stream : Stream) (input_time : rational) : CallState × FootageState :=
  let want_entry := wantEntry env colormanager video_params stream input_time
  let value : Option Texture :=
    match s.still.entries.find? (fun e => StillImageCache.CompareEntryMetadata want_entry e) with
    | some e => e.texture
    | none => none
  match value with
  | some t => (CallState.returned (some t), s)
  | none =>
    match s.still.pending.find? (fun e => StillImageCache.CompareEntryMetadata want_entry e) with
    | some e => (CallState.waiting e, s)
    | none => (CallState.producing, { s with still := s.still.PushPending want_entry })

/-- One round of the wait loop after the sleep: `lock(); value = e.texture;` and either the
exit from the loop and the return, or `unlock()` and the next sleep. -/
def pollStep (e : Entry) (s : FootageState) : CallState × FootageState :=
  match e.texture with
  | some t => (CallState.returned (some t), s)
  | none => (CallState.waiting e, s)

/-- From `ResolveDecoderFromInput` to the return: the decode, the upload and, when a frame
came back, the commit under the mutex (`RemovePending`, `PushEntry`). -/
def produceStep (env : FootageEnv) (colormanager : Nat) (video_params : VideoParams)
    (s : FootageState) (stream : Stream) (input_time : rational) : CallState × FootageState :=
  let want_entry := wantEntry env colormanager video_params stream input_time
  let (decoder, decoders1) := ResolveDecoderFromInput env.Open s.decoders (some stream)
  match decoder with
  | none => (CallState.returned none, { s with decoders := decoders1 })
  | some d =>
    match env.RetrieveVideo d input_time video_params.divider with
    | none => (CallState.returned none, { s with decoders := decoders1 })
    | some frame =>
      let unmanaged_texture : Texture :=
        { uid := s.textures, params := frame.params, pixels := frame.data }
      let managed_params := { frame.params with format := video_params.format }
      let value0 : Texture := { uid := s.textures + 1, params := managed_params, pixels := [] }
      let value1 : Texture :=
        { value0 with
          pixels := env.BlitColorManaged colormanager stream.colorspace unmanaged_texture value0 }
      let still2 := s.still.RemovePending want_entry
      let still3 := still2.PushEntry { want_entry with texture := some value1 }
      (CallState.returned (some value1),
        { still := still3, decoders := decoders1, textures := s.textures + 2 })

/-- One atomic step of a call. -/
def callStep (env : FootageEnv) (colormanager : Nat) (video_params : VideoParams)
    (stream : Stream) (input_time : rational) (c : CallState) (s : FootageState) :
    CallState × FootageState :=
  match c with
  | CallState.start => lookupStep env colormanager video_params s stream input_time
  | CallState.waiting e => pollStep e s
  | CallState.producing => produceStep env colormanager video_params s stream input_time
  | CallState.returned v => (CallState.returned v, s)

/-- A call run alone for `n` steps. -/
def callRun (env : FootageEnv) (colormanager : Nat) (video_params : VideoParams)
    (stream : Stream) (input_time : rational) : Nat → CallState × FootageState →
    CallState × FootageState
  | 0, cs => cs
  | n + 1, cs =>
    callRun env colormanager video_params stream input_time n
      (callStep env colormanager video_params stream input_time cs.1 cs.2)

/-- The two callers. -/
inductive Caller where
  | first
  | second
deriving DecidableEq

/-- Two calls with the same arguments and the state they share. -/
structure TwoCalls where
  shared : FootageState
  first : CallState
  second : CallState
deriving DecidableEq

/-- The caller named takes its next atomic step. -/
def TwoCalls.step (env : FootageEnv) (colormanager : Nat) (video_params : VideoParams)
    (stream : Stream) (input_time : rational) (sys : TwoCalls) (who : Caller) : TwoCalls :=
  match who with
  | Caller.first =>
    let r := callStep env colormanager video_params stream input_time sys.first sys.shared
    { sys with first := r.1, shared := r.2 }
  | Caller.second =>
    let r := callStep env colormanager video_params stream input_time sys.second sys.shared
    { sys with second := r.1, shared := r.2 }

/-- The run of a schedule: the callers step in the order listed. -/
def TwoCalls.run (env : FootageEnv) (colormanager : Nat) (video_params : VideoParams)
    (stream : Stream) (input_time : rational) (sys : TwoCalls) (schedule : List Caller) :
    TwoCalls :=
  schedule.foldl (TwoCalls.step env colormanager video_params stream input_time) sys

/-! ## Per-sample audio synthesis -/

/-- A C++ `double`, by its 64 bits. -/
abbrev Double := Fin (2 ^ 64)

/-- The double-precision operations `ProcessSamples` uses, each a function on the bits; the
two conversions belong to the `rational` class, which is outside the given sources. -/
structure DoubleOps where
  /-- `rational::toDouble`. -/
  toDouble : rational → Double
  /-- `rational::fromDouble`. -/
  fromDouble : Double → rational
  /-- `static_cast<double>` of an `int`. -/
  ofInt : Int → Double
  /-- Division of doubles. -/
  div : Double → Double → Double
  /-- Addition of doubles. -/
  add : Double → Double → Double

/-- The time `this_sample_time` of the loop body:
`rational::fromDouble(range.in().toDouble() + double(i) / double(sample_rate))`. -/
def this_sample_time (ops : DoubleOps) (range : TimeRange) (sample_rate : Int) (i : Int) :
    rational :=
  let sample_to_second := ops.div (ops.ofInt i) (ops.ofInt sample_rate)
  ops.fromDouble (ops.add (ops.toDouble range.in_) sample_to_second)

/-- Modelled from the spec: `NodeValueDatabase` (outside the given sources), the "per-sample
value context": a value table per input name. -/
abbrev NodeValueDatabase := List (String × NodeValueTable)

/-- Modelled from the spec: `NodeValueDatabase::Insert`, binding the name to the table and
replacing an earlier binding of the name. -/
def NodeValueDatabase.Insert (db : NodeValueDatabase) (key : String) (table : NodeValueTable) :
    NodeValueDatabase :=
  db.filter (fun p => decide (p.1 ≠ key)) ++ [(key, table)]

/-- `SampleJob`: the sample buffer (with the result of `is_allocated()`) and the named
values, in iteration order. -/
structure SampleJob where
  samples : Option SampleBuffer
  is_allocated : Bool
  values : List (String × NodeValue)

/-- A node as `ProcessSamples` sees it. -/
structure SamplesNode where
  uid : Nat
  /-- `Node::GetInputWithID`; no such input is `none`. -/
  GetInputWithID : String → Option Nat
  /-- Modelled from the spec: the node's "per-sample synthesis callback", called with the value
  context, the input buffer and the sample index; it yields the sample it stores at that
  index of the output buffer. -/
  ProcessSamples : NodeValueDatabase → SampleBuffer → Int → Int

/-- The collaborators and viewer parameters `ProcessSamples` uses. -/
structure SamplesEnv where
  ops : DoubleOps
  /-- The viewer's audio parameters. -/
  audio_params : AudioParams
  /-- Graph evaluation `ProcessInput(input, range)`. -/
  ProcessInput : Nat → TimeRange → NodeValueTable
  /-- `AddGlobalsToDatabase(value_db, range)`. -/
  AddGlobalsToDatabase : NodeValueDatabase → TimeRange → NodeValueDatabase
  /-- The contents a fresh allocation holds. -/
  junk : Int

/-- The record of one round of the sample loop: the index handed to the callback, the ranges
at which inputs were evaluated, and the range handed to `AddGlobalsToDatabase`. -/
structure SampleCall where
  index : Int
  inputs : List (Nat × TimeRange)
  globals : TimeRange
deriving DecidableEq

/-- The inner loop over `job.GetValues()`: the value context it builds and the input
evaluations it made. -/
def updateValues (env : SamplesEnv) (node : SamplesNode) (time : rational) :
    List (String × NodeValue) → NodeValueDatabase × List (Nat × TimeRange) →
    NodeValueDatabase × List (Nat × TimeRange)
  | [], acc => acc
  | (key, v) :: rest, (value_db, evaluated) =>
    match node.GetInputWithID key with
    | some corresponding_input =>
      let range : TimeRange := { in_ := time, out_ := time }
      updateValues env node time rest
        (value_db.Insert key (env.ProcessInput corresponding_input range),
          evaluated ++ [(corresponding_input, range)])
    | none =>
      updateValues env node time rest
        (value_db.Insert key [{ type := v.type, data := v.data, source := node.uid }], evaluated)

/-- The state of the sample loop: value context, output buffer, and the rounds so far. -/
structure SampleLoop where
  value_db : NodeValueDatabase
  output_buffer : SampleBuffer
  calls : List SampleCall

/-- One round of the sample loop, for index `i`. -/
def sampleStep (env : SamplesEnv) (node : SamplesNode) (range : TimeRange)
    (job : SampleJob) (input : SampleBuffer) (st : SampleLoop) (i : Nat) : SampleLoop :=
  let time := this_sample_time env.ops range env.audio_params.sample_rate i
  let updated := updateValues env node time job.values (st.value_db, [])
  let value_db := env.AddGlobalsToDatabase updated.1 { in_ := time, out_ := time }
  let sample := node.ProcessSamples value_db input i
  { value_db := value_db
    output_buffer := { st.output_buffer with data := st.output_buffer.data.set i sample }
    calls := st.calls ++
      [{ index := i, inputs := updated.2, globals := { in_ := time, out_ := time } }] }

/-- `RenderProcessor::ProcessSamples`: the returned variant and the rounds of the loop. -/
def ProcessSamples (env : SamplesEnv) (node : SamplesNode) (range : TimeRange)
    (job : SampleJob) : QVariant × List SampleCall :=
  match job.samples with
  | none => (QVariant.null, [])
  | some input =>
    if !job.is_allocated then
      (QVariant.null, [])
    else
      let output_buffer :=
        SampleBuffer.CreateAllocated env.junk input.audio_params input.sample_count
      let final := (List.range input.data.length).foldl (sampleStep env node range job input)
        { value_db := [], output_buffer := output_buffer, calls := [] }
      (QVariant.samples (some final.output_buffer), final.calls)

/-- The input evaluations of one pass over the job's values: one per value whose name is an
input of the node, each over the instant `[time, time]`. -/
def evaluatedInputs (node : SamplesNode) (time : rational) :
    List (String × NodeValue) → List (Nat × TimeRange)
  | [] => []
  | (key, _) :: rest =>
    match node.GetInputWithID key with
    | some input => (input, { in_ := time, out_ := time }) :: evaluatedInputs node time rest
    | none => evaluatedInputs node time rest

/-- The record of the round for index `i`. -/
def roundFor (env : SamplesEnv) (node : SamplesNode) (range : TimeRange) (job : SampleJob)
    (i : Nat) : SampleCall :=
  { index := i
    inputs := evaluatedInputs node
      (this_sample_time env.ops range env.audio_params.sample_rate i) job.values
    globals :=
      { in_ := this_sample_time env.ops range env.audio_params.sample_rate i
        out_ := this_sample_time env.ops range env.audio_params.sample_rate i } }

/-! ## Concrete inputs used in the evaluations below -/

/-- Viewer video parameters 1920x1080, divider 1, 1/30 time base. -/
def vp0 : VideoParams :=
  { width := 1920, height := 1080, format := 3, divider := 1, time_base := 1 / 30 }

/-- A moving-picture stream at address 7. -/
def stream7 : Stream :=
  { ptr := 7, decoder_id := 1, colorspace := 2, premultiplied_alpha := false, is_still := false }

/-- An empty still cache, empty decoder cache, no texture created yet. -/
def footage0 : FootageState :=
  { still := { entries := [], pending := [] }
    decoders := { cache := [], created := 0, opened := [] }
    textures := 0 }

/-- A 2x1 frame as a decoder returns it. -/
def frame0 : Frame :=
  { timestamp := 0, params := { vp0 with width := 2, height := 1, format := 0 }, data := [5, 6] }

/-- Collaborators whose decoder never opens. -/
def envNoOpen : FootageEnv :=
  { Open := fun _ _ => false
    RetrieveVideo := fun _ _ _ => some frame0
    GenerateID := fun cm cs => cm + cs
    BlitColorManaged := fun _ _ src _ => src.pixels }

/-- Collaborators whose decoder opens but yields no frame. -/
def envNoFrame : FootageEnv :=
  { envNoOpen with Open := fun _ _ => true, RetrieveVideo := fun _ _ _ => none }

/-- Collaborators whose decoder opens and decodes. -/
def envGood : FootageEnv :=
  { envNoOpen with Open := fun _ _ => true }

/-- A node with id org.blur whose shader sources are the logical id in brackets. -/
def nodeBlur : ShaderNode :=
  { id := "org.blur", GetShaderCode := fun sid => "[" ++ sid ++ "]" }

/-- A shader job for the logical shader h. -/
def jobH : ShaderJob := { shader_id := "h", iterations := 1, iterative_input := "" }

/-- An empty shader cache, nothing compiled, no texture created. -/
def shader0 : ShaderState := { cache := [], compiled := [], textures := 0 }

/-- A backend whose compilation always succeeds, the handle being the source length. -/
def compileOk (code : String) : Option Nat := some code.length

/-- A shader run that leaves one pixel, the handle, in the destination. -/
def blitOne (shader : Nat) (_ : ShaderJob) (_ : Texture) : List Nat := [shader]

/-- An empty decoder cache. -/
def decoders0 : DecoderState := { cache := [], created := 0, opened := [] }

/-- Stereo 48 kHz audio parameters. -/
def ap0 : AudioParams := { sample_rate := 48000, channel_count := 2 }

/-- A viewer with the parameters above. -/
def viewer0 : ViewerOutput :=
  { video_params := vp0, audio_params := ap0, texture_input := 1, samples_input := 2 }

/-- A video ticket for time 1/2 without an output size override. -/
def ticketVideo : RenderTicket :=
  { type := TicketType.kTypeVideo, viewer := viewer0, time := 1 / 2
    time_range := { in_ := 0, out_ := 10 }, size := { wd := 0, ht := 0 }
    cache := 9, frame := some frame0, hash := [1, 2, 3], events := [] }

/-- Collaborators whose graph evaluation yields an empty table, whose allocation leaves four
bytes of garbage, and whose disk cache write fails. -/
def runEnvEmpty : RunEnv :=
  { ProcessInput := fun _ _ => []
    allocate := fun _ => [7, 7, 7, 7]
    DownloadFromTexture := fun tex _ => tex.pixels
    SaveCacheFrame := fun _ _ _ => false
    IsCancelled := false }

/-- Audio parameters with two samples per second. -/
def ap2 : AudioParams := { sample_rate := 2, channel_count := 1 }

/-- A block over [0,4) at constant speed 1. -/
def blockA : Block :=
  { uid := 1, in_ := 0, out_ := 4, speed_is_keyframing := false, speed_is_connected := false
    speed_standard_value := 1 }

/-- A block over [4,10) at constant speed 2. -/
def blockB : Block :=
  { uid := 2, in_ := 4, out_ := 10, speed_is_keyframing := false, speed_is_connected := false
    speed_standard_value := 2 }

/-- A block over [0,4) at constant speed 0. -/
def blockZ : Block := { blockA with uid := 3, speed_standard_value := 0 }

/-- An audio track holding the two blocks [0,4) and [4,10). -/
def trackAB : TrackOutput :=
  { uid := 11, track_type := TrackType.kTrackTypeAudio, blocks := [blockA, blockB] }

/-- An audio track holding the one block [0,4). -/
def trackA : TrackOutput :=
  { uid := 12, track_type := TrackType.kTrackTypeAudio, blocks := [blockA] }

/-- Collaborators for a block evaluation that yields a side value 42 from node 5 and, after
it, a buffer of as many samples of value 3 as the sub-range holds at two per second; the
time-stretch keeps every other sample. -/
def blockEnv0 : BlockEnv :=
  { audio_params := ap2
    GenerateTable := fun b r =>
      [{ type := DataType.kOther 0, data := QVariant.other 42, source := 5 },
       { type := DataType.kSamples
         data := QVariant.samples (some
           { audio_params := ap2, data := List.replicate (ap2.time_to_samples r.length).toNat 3 })
         source := b.uid }]
    speed := fun _ buf => { buf with data := buf.data.take (buf.data.length / 2) }
    BaseGenerateBlockTable := fun _ _ => []
    waveforms_flag := false
    waveforms := []
    OverwriteSamples := fun _ buf _ => buf.data
    junk := 9 }

/-- The requested range [0,10). -/
def range010 : TimeRange := { in_ := 0, out_ := 10 }

/-- A destination buffer of twenty samples of value 9. -/
def bufNines : SampleBuffer := { audio_params := ap2, data := List.replicate 20 9 }

/-- Eight samples of value 3, what the evaluation of a block over [0,4) yields. -/
def smpThrees : SampleBuffer := { audio_params := ap2, data := List.replicate 8 3 }

/-- The side value the block evaluation of `blockEnv0` yields. -/
def sideValue : NodeValue := { type := DataType.kOther 0, data := QVariant.other 42, source := 5 }

/-- A 1920x1080 frame as the disk cache stored it, at divider 1. -/
def frameStored : Frame :=
  { timestamp := 0, params := { vp0 with divider := 1 }, data := [1, 2, 3, 4] }

/-- A disk cache that holds `frameStored` under every hash. -/
def cachedEnv : CachedFrameEnv :=
  { Hash := fun _ _ _ => [0], LoadCacheFrame := fun _ _ => some frameStored }

/-- The viewer's video parameters at divider 2. -/
def vpHalf : VideoParams := { vp0 with divider := 2 }

/-- A single-image still stream at address 8. -/
def streamStill : Stream :=
  { ptr := 8, decoder_id := 1, colorspace := 2, premultiplied_alpha := false, is_still := true }

/-- Two calls about to start on the empty caches. -/
def twoCalls0 : TwoCalls :=
  { shared := footage0, first := CallState.start, second := CallState.start }

/-- The texture the decode of `frame0` produces as the second texture of the context. -/
def textureA : Texture :=
  { uid := 1, params := { frame0.params with format := vp0.format }, pixels := [5, 6] }

/-- Double operations for the evaluations: a double holds the floor of the time in thirds of
a second, in 64 bits. -/
def opsThirds : DoubleOps :=
  { toDouble := fun r => Fin.ofNat ⌊r * 3⌋.toNat
    fromDouble := fun d => (d.val : ℚ) / 3
    ofInt := fun i => Fin.ofNat i.toNat
    div := fun a b => Fin.ofNat (a.val * 3 / b.val)
    add := fun a b => a + b }

/-- Collaborators for the sample loop at three samples per second. -/
def samplesEnv0 : SamplesEnv :=
  { ops := opsThirds
    audio_params := { sample_rate := 3, channel_count := 1 }
    ProcessInput := fun _ _ => []
    AddGlobalsToDatabase := fun db _ => db
    junk := 9 }

/-- A node with one input, named gain, whose callback stores the index. -/
def samplesNode0 : SamplesNode :=
  { uid := 4
    GetInputWithID := fun key => if key = "gain" then some 21 else none
    ProcessSamples := fun _ _ i => i }

/-- A job over an allocated buffer of three samples with the values gain and pan. -/
def sampleJob0 : SampleJob :=
  { samples := some { audio_params := ap2, data := [7, 7, 7] }
    is_allocated := true
    values := [("gain", { type := DataType.kOther 1, data := QVariant.other 1, source := 0 }),
               ("pan", { type := DataType.kOther 1, data := QVariant.other 2, source := 0 })] }

/-- A job over an allocated buffer of one sample, without named values. -/
def sampleJobOne : SampleJob :=
  { samples := some { audio_params := ap2, data := [0] }, is_allocated := true, values := [] }

/-! ## Theorems -/

/-! ### Lookup lemmas -/

theorem DecoderCache.value_insert (c : List (Nat × Decoder)) (key : Nat) (d : Decoder) :
    DecoderCache.value (DecoderCache.insert c key d) key = some d := by
  simp [DecoderCache.insert, DecoderCache.value]

theorem CompareEntryMetadata_comm (a b : Entry) :
    StillImageCache.CompareEntryMetadata a b = StillImageCache.CompareEntryMetadata b a := by
  simp only [StillImageCache.CompareEntryMetadata]
  rw [Bool.eq_iff_iff]
  simp only [Bool.and_eq_true, decide_eq_true_eq]
  constructor <;> rintro ⟨⟨⟨⟨h1, h2⟩, h3⟩, h4⟩, h5⟩ <;>
    exact ⟨⟨⟨⟨h1.symm, h2.symm⟩, h3.symm⟩, h4.symm⟩, h5.symm⟩

theorem CompareEntryMetadata_self (a : Entry) :
    StillImageCache.CompareEntryMetadata a a = true := by
  simp [StillImageCache.CompareEntryMetadata]

theorem removeFirstMatch_append_self (e : Entry) (l : List Entry)
    (h : l.any (fun x => StillImageCache.CompareEntryMetadata e x) = false) :
    removeFirstMatch e (l ++ [e]) = l := by
  induction l with
  | nil => simp [removeFirstMatch, CompareEntryMetadata_self]
  | cons x rest ih =>
    simp only [List.any_cons, Bool.or_eq_false_iff] at h
    have hx : StillImageCache.CompareEntryMetadata x e = false := by
      rw [CompareEntryMetadata_comm]; exact h.1
    simp [removeFirstMatch, hx, ih h.2]

theorem find_none_of_any_false (p : Entry → Bool) (l : List Entry) (h : l.any p = false) :
    l.find? p = none := by
  induction l with
  | nil => rfl
  | cons x rest ih =>
    simp only [List.any_cons, Bool.or_eq_false_iff] at h
    simp [List.find?, h.1, ih h.2]

/-! ### Still-image cache: the three ways a claiming call ends -/

/-- A call that claims the work and whose decoder cannot be resolved returns null and leaves
the state with its placeholder appended to the pending list. -/
theorem ProcessVideoFootage_no_decoder (env : FootageEnv) (cm : Nat) (vp : VideoParams)
    (fuel : Nat) (s : FootageState) (stream : Stream) (t : rational)
    (hentries : s.still.entries.any
      (fun e => StillImageCache.CompareEntryMetadata (wantEntry env cm vp stream t) e) = false)
    (hpending : s.still.hasPending (wantEntry env cm vp stream t) = false)
    (hdec : (ResolveDecoderFromInput env.Open s.decoders (some stream)).1 = none) :
    ∃ s1, ProcessVideoFootage env cm vp fuel s stream t = some (none, s1)
      ∧ s1.still.pending = s.still.pending ++ [wantEntry env cm vp stream t]
      ∧ s1.still.hasPending (wantEntry env cm vp stream t) = true := by
  have h1 := find_none_of_any_false _ _ hentries
  have h2 := find_none_of_any_false _ _ hpending
  rcases hr : ResolveDecoderFromInput env.Open s.decoders (some stream) with ⟨d, ds⟩
  rw [hr] at hdec
  simp only at hdec
  subst hdec
  refine ⟨{ s with still := s.still.PushPending (wantEntry env cm vp stream t), decoders := ds },
    ?_, ?_, ?_⟩
  · simp only [ProcessVideoFootage, h1, h2, hr]
  · simp [StillImageCache.PushPending]
  · simp [StillImageCache.PushPending, StillImageCache.hasPending, CompareEntryMetadata_self]

/-- A call that claims the work and whose decoder yields no frame returns null and leaves
the state with its placeholder appended to the pending list. -/
theorem ProcessVideoFootage_no_frame (env : FootageEnv) (cm : Nat) (vp : VideoParams)
    (fuel : Nat) (s : FootageState) (stream : Stream) (t : rational) (d : Decoder)
    (hentries : s.still.entries.any
      (fun e => StillImageCache.CompareEntryMetadata (wantEntry env cm vp stream t) e) = false)
    (hpending : s.still.hasPending (wantEntry env cm vp stream t) = false)
    (hdec : (ResolveDecoderFromInput env.Open s.decoders (some stream)).1 = some d)
    (hframe : env.RetrieveVideo d t vp.divider = none) :
    ∃ s1, ProcessVideoFootage env cm vp fuel s stream t = some (none, s1)
      ∧ s1.still.pending = s.still.pending ++ [wantEntry env cm vp stream t]
      ∧ s1.still.hasPending (wantEntry env cm vp stream t) = true := by
  have h1 := find_none_of_any_false _ _ hentries
  have h2 := find_none_of_any_false _ _ hpending
  rcases hr : ResolveDecoderFromInput env.Open s.decoders (some stream) with ⟨d1, ds⟩
  rw [hr] at hdec
  simp only at hdec
  subst hdec
  refine ⟨{ s with still := s.still.PushPending (wantEntry env cm vp stream t), decoders := ds },
    ?_, ?_, ?_⟩
  · simp only [ProcessVideoFootage, h1, h2, hr, hframe]
  · simp [StillImageCache.PushPending]
  · simp [StillImageCache.PushPending, StillImageCache.hasPending, CompareEntryMetadata_self]

/-- A call that claims the work and decodes a frame returns a texture, and takes its
placeholder off the pending list again: the pending list is what it was before the call. -/
theorem ProcessVideoFootage_decoded (env : FootageEnv) (cm : Nat) (vp : VideoParams)
    (fuel : Nat) (s : FootageState) (stream : Stream) (t : rational) (d : Decoder) (f : Frame)
    (hentries : s.still.entries.any
      (fun e => StillImageCache.CompareEntryMetadata (wantEntry env cm vp stream t) e) = false)
    (hpending : s.still.hasPending (wantEntry env cm vp stream t) = false)
    (hdec : (ResolveDecoderFromInput env.Open s.decoders (some stream)).1 = some d)
    (hframe : env.RetrieveVideo d t vp.divider = some f) :
    ∃ tex s1, ProcessVideoFootage env cm vp fuel s stream t = some (some tex, s1)
      ∧ s1.still.pending = s.still.pending
      ∧ s1.still.hasPending (wantEntry env cm vp stream t) = false := by
  have h1 := find_none_of_any_false _ _ hentries
  have h2 := find_none_of_any_false _ _ hpending
  rcases hr : ResolveDecoderFromInput env.Open s.decoders (some stream) with ⟨d1, ds⟩
  rw [hr] at hdec
  simp only at hdec
  subst hdec
  have hrem := removeFirstMatch_append_self (wantEntry env cm vp stream t) s.still.pending hpending
  simp only [ProcessVideoFootage, h1, h2, hr, hframe]
  refine ⟨_, _, rfl, ?_, ?_⟩
  · simp [StillImageCache.PushPending, StillImageCache.RemovePending,
      StillImageCache.PushEntry, hrem]
  · simpa [StillImageCache.PushPending, StillImageCache.RemovePending,
      StillImageCache.PushEntry, hrem, StillImageCache.hasPending] using hpending

/-- C1, evaluated on the code: starting from an empty still cache, a call for stream 7 at
time 0 claims the work by pushing a pending placeholder; when the decoder does not open, and
likewise when the decoder opens but `RetrieveVideo` returns no frame, the call returns a null
texture and the pending list still holds the placeholder; only when decoding succeeds is the
pending list empty again. -/
theorem ProcessVideoFootage_pending_after_return :
    ((ProcessVideoFootage envNoOpen 0 vp0 5 footage0 stream7 0).map
        (fun r => (r.1, r.2.still.pending, r.2.still.hasPending (wantEntry envNoOpen 0 vp0 stream7 0)))
      = some (none, [wantEntry envNoOpen 0 vp0 stream7 0], true))
    ∧ ((ProcessVideoFootage envNoFrame 0 vp0 5 footage0 stream7 0).map
        (fun r => (r.1, r.2.still.pending, r.2.still.hasPending (wantEntry envNoFrame 0 vp0 stream7 0)))
      = some (none, [wantEntry envNoFrame 0 vp0 stream7 0], true))
    ∧ ((ProcessVideoFootage envGood 0 vp0 5 footage0 stream7 0).map
        (fun r => (r.1.isSome, r.2.still.pending, r.2.still.hasPending (wantEntry envGood 0 vp0 stream7 0)))
      = some (true, [], false)) := by
  refine ⟨?_, ?_, ?_⟩ <;> decide

/-! ### Shader cache -/

/-- A cache miss with a successful compilation returns a texture, records one compilation and
leaves the shader cache as it was: the compiled program is not inserted. -/
theorem ProcessShader_miss (C : String → Option Nat) (B : Nat → ShaderJob → Texture → List Nat)
    (vp : VideoParams) (s : ShaderState) (node : ShaderNode) (job : ShaderJob) (sh : Nat)
    (hmiss : ShaderCache.value s.cache (full_shader_id node job) = none)
    (hok : C (node.GetShaderCode job.GetShaderID) = some sh) :
    (ProcessShader C B vp s node job).1.isSome = true
      ∧ (ProcessShader C B vp s node job).2.cache = s.cache
      ∧ (ProcessShader C B vp s node job).2.compiled
          = s.compiled ++ [node.GetShaderCode job.GetShaderID] := by
  simp [ProcessShader, hmiss, hok]

/-- Two successive calls for the same node and logical shader id, from a cache without the
key and with compilation succeeding, compile twice. -/
theorem ProcessShader_twice (C : String → Option Nat) (B : Nat → ShaderJob → Texture → List Nat)
    (vp : VideoParams) (s : ShaderState) (node : ShaderNode) (job : ShaderJob) (sh : Nat)
    (hmiss : ShaderCache.value s.cache (full_shader_id node job) = none)
    (hok : C (node.GetShaderCode job.GetShaderID) = some sh) :
    (ProcessShader C B vp (ProcessShader C B vp s node job).2 node job).2.compiled
      = s.compiled ++ [node.GetShaderCode job.GetShaderID, node.GetShaderCode job.GetShaderID]
    ∧ (ProcessShader C B vp (ProcessShader C B vp s node job).2 node job).2.cache = s.cache := by
  obtain ⟨-, h2, h3⟩ := ProcessShader_miss C B vp s node job sh hmiss hok
  have hmiss2 : ShaderCache.value (ProcessShader C B vp s node job).2.cache
      (full_shader_id node job) = none := by rw [h2]; exact hmiss
  obtain ⟨-, k2, k3⟩ := ProcessShader_miss C B vp _ node job sh hmiss2 hok
  rw [k3, k2, h3, h2]
  simp

/-- C2, evaluated on the code: from an empty shader cache and with a backend that compiles
successfully, two successive calls for node org.blur and logical shader h both return a
texture, the backend compilation is invoked twice on the same source, and the cache holds no
program under the key org.blur:h after either call. -/
theorem ProcessShader_compiles_on_every_call :
    full_shader_id nodeBlur jobH = "org.blur:h"
    ∧ (ProcessShader compileOk blitOne vp0 shader0 nodeBlur jobH).1.isSome = true
    ∧ (ProcessShader compileOk blitOne vp0 shader0 nodeBlur jobH).2.cache = []
    ∧ (ProcessShader compileOk blitOne vp0
        (ProcessShader compileOk blitOne vp0 shader0 nodeBlur jobH).2 nodeBlur jobH).1.isSome = true
    ∧ (ProcessShader compileOk blitOne vp0
        (ProcessShader compileOk blitOne vp0 shader0 nodeBlur jobH).2 nodeBlur jobH).2.compiled
        = ["[h]", "[h]"]
    ∧ ShaderCache.value (ProcessShader compileOk blitOne vp0
        (ProcessShader compileOk blitOne vp0 shader0 nodeBlur jobH).2 nodeBlur jobH).2.cache
        "org.blur:h" = none := by
  refine ⟨by decide, ?_, ?_, ?_, ?_, ?_⟩ <;> rfl

/-! ### Decoder resolution -/

/-- C3: when a call of `ResolveDecoderFromInput` for a non-null stream returns a decoder
(found in the cache, or freshly constructed and opened successfully), a second call for the
same stream returns the same decoder instance and leaves the whole decoder state unchanged:
the cache is the same, no further decoder is constructed and no further `Open` is issued. -/
theorem ResolveDecoderFromInput_idempotent (Open : Decoder → Stream → Bool) (s s1 : DecoderState)
    (st : Stream) (d : Decoder)
    (h : ResolveDecoderFromInput Open s (some st) = (some d, s1)) :
    ResolveDecoderFromInput Open s1 (some st) = (some d, s1) := by
  unfold ResolveDecoderFromInput at h
  simp only at h
  split at h
  · next d0 hc =>
    simp only [Prod.mk.injEq, Option.some.injEq] at h
    obtain ⟨rfl, rfl⟩ := h
    simp [ResolveDecoderFromInput, hc]
  · next hc =>
    split at h
    · simp only [Prod.mk.injEq, Option.some.injEq] at h
      obtain ⟨rfl, rfl⟩ := h
      simp [ResolveDecoderFromInput, DecoderCache.value_insert]
    · simp at h

/-- Witness for C3: with a decoder that opens, the first call on an empty cache constructs
decoder 0 and the second call returns that same instance from the unchanged state. -/
theorem ResolveDecoderFromInput_idempotent_witness :
    ResolveDecoderFromInput (fun _ _ => true) decoders0 (some stream7)
        = (some { uid := 0, kind := 1 },
            { cache := [(7, { uid := 0, kind := 1 })], created := 1, opened := [(0, 7)] })
    ∧ ResolveDecoderFromInput (fun _ _ => true)
        { cache := [(7, { uid := 0, kind := 1 })], created := 1, opened := [(0, 7)] } (some stream7)
        = (some { uid := 0, kind := 1 },
            { cache := [(7, { uid := 0, kind := 1 })], created := 1, opened := [(0, 7)] }) :=
  ⟨by decide, ResolveDecoderFromInput_idempotent (fun _ _ => true) decoders0 _ stream7 _ (by decide)⟩

/-- C4: `ResolveDecoderFromInput` returns no decoder exactly when the stream is null, or the
stream has no cached decoder and `Open` fails on the freshly constructed decoder.  Whenever it
returns no decoder the cache is exactly what it was.  After a failed open, a later call for
the same stream constructs another decoder, with a uid different from the failed one, issues
`Open` on it, and returns it exactly when that `Open` succeeds. -/
theorem ResolveDecoderFromInput_failure (Open : Decoder → Stream → Bool) (s : DecoderState)
    (stream : Option Stream) :
    ((ResolveDecoderFromInput Open s stream).1 = none ↔
      (stream = none ∨ ∃ st, stream = some st ∧ DecoderCache.value s.cache st.ptr = none
          ∧ Open (Decoder.CreateFromID s.created st.decoder_id) st = false))
    ∧ ((ResolveDecoderFromInput Open s stream).1 = none →
        (ResolveDecoderFromInput Open s stream).2.cache = s.cache)
    ∧ (∀ st, stream = some st → (ResolveDecoderFromInput Open s stream).1 = none →
        ∀ Open2 : Decoder → Stream → Bool,
          (ResolveDecoderFromInput Open2 (ResolveDecoderFromInput Open s stream).2 stream).2.opened
              = s.opened ++ [(s.created, st.ptr), (s.created + 1, st.ptr)]
          ∧ (ResolveDecoderFromInput Open2 (ResolveDecoderFromInput Open s stream).2 stream).2.created
              = s.created + 2
          ∧ (ResolveDecoderFromInput Open2 (ResolveDecoderFromInput Open s stream).2 stream).1
              = (if Open2 (Decoder.CreateFromID (s.created + 1) st.decoder_id) st
                  then some (Decoder.CreateFromID (s.created + 1) st.decoder_id) else none)) := by
  cases stream with
  | none => simp [ResolveDecoderFromInput]
  | some st =>
    cases hc : DecoderCache.value s.cache st.ptr with
    | some d => simp [ResolveDecoderFromInput, hc]
    | none =>
      cases ho : Open (Decoder.CreateFromID s.created st.decoder_id) st with
      | true => simp [ResolveDecoderFromInput, hc, ho]
      | false =>
        refine ⟨by simp [ResolveDecoderFromInput, hc, ho],
          by simp [ResolveDecoderFromInput, hc, ho], ?_⟩
        intro st1 hst _ Open2
        simp only [Option.some.injEq] at hst
        subst hst
        simp only [Decoder.CreateFromID] at ho
        have hfirst : ResolveDecoderFromInput Open s (some st)
            = (none, { s with created := s.created + 1,
                              opened := s.opened ++ [(s.created, st.ptr)] }) := by
          simp [ResolveDecoderFromInput, hc, ho, Decoder.CreateFromID]
        rw [hfirst]
        simp only [Decoder.CreateFromID]
        cases ho2 : Open2 { uid := s.created + 1, kind := st.decoder_id } st <;>
          simp [ResolveDecoderFromInput, hc, ho2, Decoder.CreateFromID]

/-- Witness for C4: a decoder that never opens on an empty cache: the call returns nothing,
the cache stays empty, and a later call with a decoder that opens constructs decoder 1. -/
theorem ResolveDecoderFromInput_failure_witness :
    (ResolveDecoderFromInput (fun _ _ => false) decoders0 (some stream7)).1 = none
    ∧ (ResolveDecoderFromInput (fun _ _ => false) decoders0 (some stream7)).2.cache
        = decoders0.cache
    ∧ (ResolveDecoderFromInput (fun _ _ => true)
        (ResolveDecoderFromInput (fun _ _ => false) decoders0 (some stream7)).2 (some stream7)).1
        = some { uid := 1, kind := 1 } := by
  have h := ResolveDecoderFromInput_failure (fun _ _ => false) decoders0 (some stream7)
  have hnone : (ResolveDecoderFromInput (fun _ _ => false) decoders0 (some stream7)).1 = none := by
    decide
  refine ⟨hnone, h.2.1 hnone, ?_⟩
  have h3 := (h.2.2 stream7 rfl hnone (fun _ _ => true)).2.2
  rw [h3]
  decide

/-! ### Ticket dispatch -/

theorem memset_all_zero (data : List Nat) : ∀ b ∈ memset data 0 data.length, b = 0 := by
  intro b hb
  simp only [memset, List.drop_length, List.append_nil, min_self] at hb
  exact List.eq_of_mem_replicate hb

theorem memset_length (data : List Nat) : (memset data 0 data.length).length = data.length := by
  simp [memset]

/-- C5: for every ticket, `Run` appends exactly two calls to the ticket's record: `Start`,
and after it one finalizing call.  That call is a `Finish` when the kind is video-frame,
audio-block or frame-download, and it is `Cancel` for every other kind; so `Finish` and
`Cancel` together are called exactly once. -/
theorem Run_finalizes_once (env : RunEnv) (t : RenderTicket) :
    ∃ e, (Run env t).events = t.events ++ [TicketEvent.Start, e]
      ∧ (match t.type with
          | TicketType.kOther _ => e = TicketEvent.Cancel
          | _ => ∃ v c, e = TicketEvent.Finish v c) := by
  cases ht : t.type with
  | kTypeVideo => exact ⟨_, by simp only [Run, ht, List.append_assoc]; rfl, _, _, rfl⟩
  | kTypeAudio => exact ⟨_, by simp only [Run, ht, List.append_assoc]; rfl, _, _, rfl⟩
  | kTypeVideoDownload => exact ⟨_, by simp only [Run, ht, List.append_assoc]; rfl, _, _, rfl⟩
  | kOther n => exact ⟨_, by simp only [Run, ht, List.append_assoc]; rfl, rfl⟩

/-- C6: in the video-frame branch, when graph evaluation yields no texture, the ticket is
finished with a frame whose timestamp is the requested time, whose parameters are the
viewer's video parameters with width and height replaced by the ticket's size unless that
size is null, and whose buffer has the allocated size and is zero everywhere. -/
theorem Run_video_blank_frame (env : RunEnv) (t : RenderTicket)
    (hty : t.type = TicketType.kTypeVideo)
    (hnone : (NodeValueTable.Get (env.ProcessInput t.viewer.texture_input
        { in_ := t.time, out_ := t.time + t.viewer.video_params.time_base })
        DataType.kTexture).toTexture = none) :
    ∃ f, (Run env t).events
        = t.events ++ [TicketEvent.Start, TicketEvent.Finish (QVariant.frame (some f)) env.IsCancelled]
      ∧ f.timestamp = t.time
      ∧ f.params = (if t.size.isNull then t.viewer.video_params
          else { t.viewer.video_params with width := t.size.wd, height := t.size.ht })
      ∧ f.data.length = (env.allocate f.params).length
      ∧ ∀ b ∈ f.data, b = 0 := by
  refine ⟨RunVideoFrame env { t with events := t.events ++ [TicketEvent.Start] }, ?_, ?_, ?_, ?_, ?_⟩
  · simp [Run, hty]
  · simp only [RunVideoFrame, hnone]
  · simp only [RunVideoFrame, hnone]
    cases t.size.isNull <;> simp
  · simp only [RunVideoFrame, hnone, Frame.allocated_size]
    exact memset_length _
  · simp only [RunVideoFrame, hnone, Frame.allocated_size]
    exact memset_all_zero _

/-- Witness for C6: a video ticket whose graph evaluation yields an empty table. -/
theorem Run_video_blank_frame_witness :
    ∃ f, (Run runEnvEmpty ticketVideo).events
        = ticketVideo.events
          ++ [TicketEvent.Start, TicketEvent.Finish (QVariant.frame (some f)) runEnvEmpty.IsCancelled]
      ∧ f.timestamp = ticketVideo.time
      ∧ f.params = (if ticketVideo.size.isNull then ticketVideo.viewer.video_params
          else { ticketVideo.viewer.video_params with
                 width := ticketVideo.size.wd, height := ticketVideo.size.ht })
      ∧ f.data.length = (runEnvEmpty.allocate f.params).length
      ∧ ∀ b ∈ f.data, b = 0 :=
  Run_video_blank_frame runEnvEmpty ticketVideo rfl rfl

/-- C7: in the disk-persist branch the ticket is finished with exactly the boolean that
`SaveCacheFrame(hash, frame)` returned and with the cancelled flag false; no `Cancel` is
issued, whatever the write returned. -/
theorem Run_download_reports_save (env : RunEnv) (t : RenderTicket)
    (hty : t.type = TicketType.kTypeVideoDownload) :
    (Run env t).events
      = t.events ++ [TicketEvent.Start,
          TicketEvent.Finish (QVariant.bool (env.SaveCacheFrame t.cache t.hash t.frame)) false] := by
  simp [Run, hty]

/-- Witness for C7: a failed write (finished with false) and a successful write (finished
with true); neither is a cancellation. -/
theorem Run_download_reports_save_witness :
    (Run runEnvEmpty { ticketVideo with type := TicketType.kTypeVideoDownload }).events
        = [TicketEvent.Start, TicketEvent.Finish (QVariant.bool false) false]
    ∧ (Run { runEnvEmpty with SaveCacheFrame := fun _ _ _ => true }
          { ticketVideo with type := TicketType.kTypeVideoDownload }).events
        = [TicketEvent.Start, TicketEvent.Finish (QVariant.bool true) false] :=
  ⟨Run_download_reports_save runEnvEmpty
      { ticketVideo with type := TicketType.kTypeVideoDownload } rfl,
   Run_download_reports_save { runEnvEmpty with SaveCacheFrame := fun _ _ _ => true }
      { ticketVideo with type := TicketType.kTypeVideoDownload } rfl⟩

/-! ### Audio block assembly -/

theorem SampleBuffer.set_some (dst : SampleBuffer) (src : List Int) (off len : Int)
    (h0 : 0 ≤ off) (h1 : 0 ≤ len) (h2 : len ≤ src.length) (h3 : off + len ≤ dst.data.length) :
    dst.set src off len = some { dst with
      data := dst.data.take off.toNat ++ src.take len.toNat
        ++ dst.data.drop (off.toNat + len.toNat) } := by
  simp [SampleBuffer.set, h0, h1, h2, h3]

theorem SampleBuffer.set_length (dst d : SampleBuffer) (src : List Int) (off len : Int)
    (h : dst.set src off len = some d) :
    d.data.length = dst.data.length ∧ d.audio_params = dst.audio_params := by
  unfold SampleBuffer.set at h
  split at h
  · next hc =>
    obtain ⟨h0, h1, h2, h3⟩ := hc
    simp only [Option.some.injEq] at h
    subst h
    refine ⟨?_, rfl⟩
    simp only [List.length_append, List.length_take, List.length_drop]
    omega
  · simp at h

/-- The sub-range of an overlapping, well-formed block lies inside the destination: the
offset and the capacity are not negative and together do not pass the buffer's size. -/
theorem sub_range_in_bounds (p : AudioParams) (b : Block) (range : TimeRange)
    (hsr : 0 ≤ p.sample_rate) (hb : b.in_ ≤ b.out_) (hr : range.in_ ≤ range.out_)
    (h1 : b.in_ ≤ range.out_) (h2 : range.in_ ≤ b.out_) :
    0 ≤ destination_offset p b range ∧ 0 ≤ max_dest_sz p b range
      ∧ destination_offset p b range + max_dest_sz p b range
          ≤ p.time_to_samples range.length := by
  have hq : (0 : ℚ) ≤ (p.sample_rate : ℚ) := by exact_mod_cast hsr
  simp only [destination_offset, max_dest_sz, AudioParams.time_to_samples, range_for_block,
    TimeRange.length]
  refine ⟨?_, ?_, ?_⟩
  · exact Int.floor_nonneg.mpr (mul_nonneg (sub_nonneg.mpr (le_max_right _ _)) hq)
  · refine Int.floor_nonneg.mpr (mul_nonneg (sub_nonneg.mpr ?_) hq)
    exact max_le (le_min hb h1) (le_min h2 hr)
  · refine le_trans (Int.le_floor_add _ _) (Int.floor_mono ?_)
    have : (max b.in_ range.in_ - range.in_) * (p.sample_rate : ℚ)
        + (min b.out_ range.out_ - max b.in_ range.in_) * (p.sample_rate : ℚ)
        = (min b.out_ range.out_ - range.in_) * (p.sample_rate : ℚ) := by ring
    rw [this]
    exact mul_le_mul_of_nonneg_right (sub_le_sub_right (min_le_right _ _) _) hq

/-- One round of the loop on an overlapping, well-formed block returns, keeps the
destination's size and parameters, and leaves the merged table as it was. -/
theorem blockStep_some (env : BlockEnv) (range : TimeRange) (buf : SampleBuffer)
    (merged : NodeValueTable) (b : Block)
    (hsr : 0 ≤ env.audio_params.sample_rate) (hb : b.in_ ≤ b.out_)
    (hr : range.in_ ≤ range.out_) (h1 : b.in_ ≤ range.out_) (h2 : range.in_ ≤ b.out_)
    (hlen : (buf.data.length : Int) = env.audio_params.time_to_samples range.length) :
    ∃ buf1, blockStep env range (buf, merged) b = some (buf1, merged)
      ∧ buf1.data.length = buf.data.length ∧ buf1.audio_params = buf.audio_params := by
  obtain ⟨k0, k1, k2⟩ := sub_range_in_bounds env.audio_params b range hsr hb hr h1 h2
  unfold blockStep
  simp only
  cases hs : (NodeValueTable.Take (env.GenerateTable b (range_for_block b range))
      DataType.kSamples).1.toSamples with
  | none => exact ⟨buf, rfl, rfl, rfl⟩
  | some smp =>
    simp only
    have hc0 : 0 ≤ min (max_dest_sz env.audio_params b range) (applySpeed env b smp).sample_count :=
      le_min k1 (by simp [SampleBuffer.sample_count])
    have hc1 : min (max_dest_sz env.audio_params b range) (applySpeed env b smp).sample_count
        ≤ ((applySpeed env b smp).data.length : Int) := min_le_right _ _
    have hc2 : destination_offset env.audio_params b range
        + min (max_dest_sz env.audio_params b range) (applySpeed env b smp).sample_count
        ≤ (buf.data.length : Int) := by
      have := min_le_left (max_dest_sz env.audio_params b range)
        (applySpeed env b smp).sample_count
      omega
    rw [SampleBuffer.set_some buf _ _ _ k0 hc0 hc1 hc2]
    refine ⟨_, rfl, ?_, rfl⟩
    simp only [List.length_append, List.length_take, List.length_drop]
    omega

/-- The whole loop over overlapping, well-formed blocks returns, keeps the destination's size
and parameters, and leaves the merged table as it was. -/
theorem blockLoop_some (env : BlockEnv) (range : TimeRange)
    (hsr : 0 ≤ env.audio_params.sample_rate) (hr : range.in_ ≤ range.out_)
    (blocks : List Block)
    (hbs : ∀ b ∈ blocks, b.in_ ≤ b.out_ ∧ b.in_ ≤ range.out_ ∧ range.in_ ≤ b.out_) :
    ∀ (buf : SampleBuffer) (merged : NodeValueTable),
      (buf.data.length : Int) = env.audio_params.time_to_samples range.length →
      ∃ buf1, blockLoop env range blocks (buf, merged) = some (buf1, merged)
        ∧ buf1.data.length = buf.data.length ∧ buf1.audio_params = buf.audio_params := by
  induction blocks with
  | nil => intro buf merged _; exact ⟨buf, rfl, rfl, rfl⟩
  | cons b rest ih =>
    intro buf merged hlen
    obtain ⟨hb, h1, h2⟩ := hbs b (List.mem_cons_self _ _)
    obtain ⟨buf1, e1, l1, p1⟩ := blockStep_some env range buf merged b hsr hb hr h1 h2 hlen
    obtain ⟨buf2, e2, l2, p2⟩ :=
      ih (fun x hx => hbs x (List.mem_cons_of_mem _ hx)) buf1 merged (by rw [l1]; exact hlen)
    refine ⟨buf2, ?_, by rw [l2, l1], by rw [p2, p1]⟩
    simp only [blockLoop, e1, e2]

theorem BlocksAtTimeRange_overlap (track : TrackOutput) (range : TimeRange) (b : Block)
    (h : b ∈ track.BlocksAtTimeRange range) :
    b ∈ track.blocks ∧ b.in_ < range.out_ ∧ range.in_ < b.out_ := by
  simpa [TrackOutput.BlocksAtTimeRange, List.mem_filter] using h

theorem Get_Push (t : NodeValueTable) (ty : DataType) (v : QVariant) (src : Nat) :
    NodeValueTable.Get (NodeValueTable.Push t ty v src) ty = v := by
  simp [NodeValueTable.Get, NodeValueTable.Push]

/-- C8: for an audio track with well-formed blocks (in not after out), a range with in not
after out and a sample rate that is not negative, `GenerateBlockTable` returns a table whose
samples-tagged value is a buffer with exactly time_to_samples(range.length()) samples and the
viewer's audio parameters, whatever the blocks, their speeds and the samples their evaluation
produced (for the range [0,10) that count is sample_rate * 10); and with no overlapping block
every sample of the buffer is zero. -/
theorem GenerateBlockTable_sample_count (env : BlockEnv) (track : TrackOutput) (range : TimeRange)
    (haudio : track.track_type = TrackType.kTrackTypeAudio)
    (hsr : 0 ≤ env.audio_params.sample_rate) (hr : range.in_ ≤ range.out_)
    (hblocks : ∀ b ∈ track.blocks, b.in_ ≤ b.out_) :
    ∃ r buf, GenerateBlockTable env track range = some r
      ∧ NodeValueTable.Get r.table DataType.kSamples = QVariant.samples (some buf)
      ∧ buf.sample_count = env.audio_params.time_to_samples range.length
      ∧ buf.audio_params = env.audio_params
      ∧ env.audio_params.time_to_samples (TimeRange.length { in_ := 0, out_ := 10 })
          = env.audio_params.sample_rate * 10
      ∧ (track.BlocksAtTimeRange range = [] → ∀ x ∈ buf.data, x = 0) := by
  have htot : 0 ≤ env.audio_params.time_to_samples range.length := by
    have hq : (0 : ℚ) ≤ (env.audio_params.sample_rate : ℚ) := by exact_mod_cast hsr
    exact Int.floor_nonneg.mpr (mul_nonneg (sub_nonneg.mpr hr) hq)
  have hbs : ∀ b ∈ track.BlocksAtTimeRange range,
      b.in_ ≤ b.out_ ∧ b.in_ ≤ range.out_ ∧ range.in_ ≤ b.out_ := by
    intro b hb
    obtain ⟨hm, h1, h2⟩ := BlocksAtTimeRange_overlap track range b hb
    exact ⟨hblocks b hm, le_of_lt h1, le_of_lt h2⟩
  have hlen0 : ((((SampleBuffer.CreateAllocated env.junk env.audio_params
      (env.audio_params.time_to_samples range.length)).fill 0).data.length : Nat) : Int)
      = env.audio_params.time_to_samples range.length := by
    simp [SampleBuffer.CreateAllocated, SampleBuffer.fill, Int.toNat_of_nonneg htot]
  obtain ⟨buf1, e1, l1, p1⟩ := blockLoop_some env range hsr hr _ hbs _ [] hlen0
  have hG : GenerateBlockTable env track range = some
      { table := NodeValueTable.Push [] DataType.kSamples (QVariant.samples (some buf1)) track.uid
        waveforms :=
          if env.waveforms_flag then
            env.waveforms ++
              [{ track := track.uid
                 waveform := env.OverwriteSamples env.audio_params.channel_count buf1
                   env.audio_params.sample_rate
                 range := range }]
          else env.waveforms } := by
    simp only [GenerateBlockTable, haudio, if_true, e1]
  refine ⟨_, buf1, hG, ?_, ?_, ?_, ?_, ?_⟩
  · exact Get_Push _ _ _ _
  · simp only [SampleBuffer.sample_count]
    rw [l1]; exact hlen0
  · rw [p1]; rfl
  · simp only [AudioParams.time_to_samples, TimeRange.length, sub_zero]
    rw [mul_comm]
    exact_mod_cast Int.floor_intCast (env.audio_params.sample_rate * 10)
  · intro hnil x hx
    rw [hnil] at e1
    simp only [blockLoop, Option.some.injEq, Prod.mk.injEq, and_true] at e1
    rw [← e1] at hx
    simp only [SampleBuffer.fill] at hx
    exact List.eq_of_mem_replicate hx

/-- Witness for C8: the range [0,10) over a track with the blocks [0,4) at speed 1 and [4,10)
at speed 2, at two samples per second. -/
theorem GenerateBlockTable_sample_count_witness :
    ∃ r buf, GenerateBlockTable blockEnv0 trackAB range010 = some r
      ∧ NodeValueTable.Get r.table DataType.kSamples = QVariant.samples (some buf)
      ∧ buf.sample_count = blockEnv0.audio_params.time_to_samples range010.length
      ∧ buf.audio_params = blockEnv0.audio_params
      ∧ blockEnv0.audio_params.time_to_samples (TimeRange.length { in_ := 0, out_ := 10 })
          = blockEnv0.audio_params.sample_rate * 10
      ∧ (trackAB.BlocksAtTimeRange range010 = [] → ∀ x ∈ buf.data, x = 0) :=
  GenerateBlockTable_sample_count blockEnv0 trackAB range010 rfl (by decide)
    (by norm_num [range010])
    (by
      intro b hb
      simp only [trackAB, List.mem_cons, List.mem_singleton, List.not_mem_nil, or_false] at hb
      rcases hb with rfl | rfl <;> norm_num [blockA, blockB])

theorem applySpeed_zero (env : BlockEnv) (b : Block) (smp : SampleBuffer)
    (hk : b.speed_is_keyframing = false) (hc : b.speed_is_connected = false)
    (hz : b.speed_standard_value = 0) :
    applySpeed env b smp = smp.fill 0 := by
  simp [applySpeed, hk, hc, hz, qIsNull]

/-- C9: a block whose speed input is a constant zero (not keyframed, not connected) and whose
evaluation produced a sample buffer: the round of the loop for it returns, and every sample
of the destination in the written region, from destination_offset up to destination_offset +
copy_length with copy_length = min(max_dest_sz, sample count), is zero, whatever samples the
evaluation produced and whatever the destination held before. -/
theorem blockStep_zero_speed_silence (env : BlockEnv) (range : TimeRange) (buf : SampleBuffer)
    (merged : NodeValueTable) (b : Block) (smp : SampleBuffer)
    (hsr : 0 ≤ env.audio_params.sample_rate) (hb : b.in_ ≤ b.out_)
    (hr : range.in_ ≤ range.out_) (h1 : b.in_ < range.out_) (h2 : range.in_ < b.out_)
    (hlen : (buf.data.length : Int) = env.audio_params.time_to_samples range.length)
    (hk : b.speed_is_keyframing = false) (hc : b.speed_is_connected = false)
    (hz : b.speed_standard_value = 0)
    (hs : (NodeValueTable.Take (env.GenerateTable b (range_for_block b range))
      DataType.kSamples).1.toSamples = some smp) :
    ∃ buf1, blockStep env range (buf, merged) b = some (buf1, merged)
      ∧ buf1.data.length = buf.data.length
      ∧ ∀ i : Nat, destination_offset env.audio_params b range ≤ (i : Int) →
          (i : Int) < destination_offset env.audio_params b range
            + min (max_dest_sz env.audio_params b range) smp.sample_count →
          buf1.data[i]? = some 0 := by
  obtain ⟨k0, k1, k2⟩ :=
    sub_range_in_bounds env.audio_params b range hsr hb hr (le_of_lt h1) (le_of_lt h2)
  have hfill := applySpeed_zero env b smp hk hc hz
  have hcnt : (smp.fill 0).sample_count = smp.sample_count := by
    simp [SampleBuffer.fill, SampleBuffer.sample_count]
  have hc0 : 0 ≤ min (max_dest_sz env.audio_params b range) smp.sample_count :=
    le_min k1 (by simp [SampleBuffer.sample_count])
  have hc1 : min (max_dest_sz env.audio_params b range) smp.sample_count
      ≤ ((smp.fill 0).data.length : Int) := by
    simp [SampleBuffer.fill, SampleBuffer.sample_count]
  have hc2 : destination_offset env.audio_params b range
      + min (max_dest_sz env.audio_params b range) smp.sample_count ≤ (buf.data.length : Int) := by
    have := min_le_left (max_dest_sz env.audio_params b range) smp.sample_count
    omega
  have hstep : blockStep env range (buf, merged) b = some
      ({ buf with
          data := buf.data.take (destination_offset env.audio_params b range).toNat
            ++ (smp.fill 0).data.take
                (min (max_dest_sz env.audio_params b range) smp.sample_count).toNat
            ++ buf.data.drop ((destination_offset env.audio_params b range).toNat
                + (min (max_dest_sz env.audio_params b range) smp.sample_count).toNat) },
        merged) := by
    unfold blockStep
    simp only [hs, hfill, hcnt]
    rw [SampleBuffer.set_some buf _ _ _ k0 hc0 hc1 hc2]
  refine ⟨_, hstep, ?_, ?_⟩
  · simp only [List.length_append, List.length_take, List.length_drop]
    omega
  · intro i hi1 hi2
    have hsl : (smp.sample_count : Int) = (smp.data.length : Int) := rfl
    have hA : (buf.data.take (destination_offset env.audio_params b range).toNat).length
        = (destination_offset env.audio_params b range).toNat := by
      rw [List.length_take]; omega
    have hle : (destination_offset env.audio_params b range).toNat ≤ i := by omega
    simp only [List.append_assoc]
    rw [List.getElem?_append_right (by rw [hA]; exact hle), hA]
    have hlt : i - (destination_offset env.audio_params b range).toNat
        < (min (max_dest_sz env.audio_params b range) smp.sample_count).toNat := by omega
    have hB : ((smp.fill 0).data.take
        (min (max_dest_sz env.audio_params b range) smp.sample_count).toNat).length
        = (min (max_dest_sz env.audio_params b range) smp.sample_count).toNat := by
      simp only [SampleBuffer.fill, List.length_take, List.length_replicate]
      have := min_le_right (max_dest_sz env.audio_params b range) smp.sample_count
      omega
    rw [List.getElem?_append_left (by rw [hB]; exact hlt)]
    simp only [SampleBuffer.fill, List.take_replicate]
    rw [List.getElem?_replicate_of_lt]
    have := min_le_right (max_dest_sz env.audio_params b range) smp.sample_count
    omega

/-- Witness for C9: the zero-speed block [0,4) in the range [0,10) at two samples per second,
its evaluation yielding eight samples of value 3, the destination holding twenty samples of
value 9 before the round. -/
theorem blockStep_zero_speed_silence_witness :
    ∃ buf1, blockStep blockEnv0 range010 (bufNines, []) blockZ = some (buf1, [])
      ∧ buf1.data.length = bufNines.data.length
      ∧ ∀ i : Nat, destination_offset blockEnv0.audio_params blockZ range010 ≤ (i : Int) →
          (i : Int) < destination_offset blockEnv0.audio_params blockZ range010
            + min (max_dest_sz blockEnv0.audio_params blockZ range010) smpThrees.sample_count →
          buf1.data[i]? = some 0 :=
  blockStep_zero_speed_silence blockEnv0 range010 bufNines [] blockZ smpThrees (by decide)
    (by norm_num [blockZ, blockA]) (by norm_num [range010])
    (by norm_num [blockZ, blockA, range010]) (by norm_num [blockZ, blockA, range010])
    (by decide!) rfl rfl rfl (by decide!)

/-- The loop never changes the merged table. -/
theorem blockLoop_merged (env : BlockEnv) (range : TimeRange) (blocks : List Block) :
    ∀ (acc acc1 : SampleBuffer × NodeValueTable),
      blockLoop env range blocks acc = some acc1 → acc1.2 = acc.2 := by
  induction blocks with
  | nil =>
    intro acc acc1 h
    simp only [blockLoop, Option.some.injEq] at h
    rw [h]
  | cons b rest ih =>
    intro acc acc1 h
    simp only [blockLoop] at h
    cases hstep : blockStep env range acc b with
    | none => rw [hstep] at h; simp at h
    | some acc2 =>
      rw [hstep] at h
      have h2 := ih acc2 acc1 h
      have h3 : acc2.2 = acc.2 := by
        unfold blockStep at hstep
        simp only at hstep
        split at hstep
        · simp only [Option.some.injEq] at hstep; rw [hstep]
        · split at hstep
          · simp at hstep
          · simp only [Option.some.injEq] at hstep; rw [← hstep]
      rw [h2, h3]

/-- Whenever `GenerateBlockTable` returns for an audio track, the returned table holds one
entry only, the assembled samples attributed to the track. -/
theorem GenerateBlockTable_table_single (env : BlockEnv) (track : TrackOutput)
    (range : TimeRange) (r : BlockTableResult)
    (haudio : track.track_type = TrackType.kTrackTypeAudio)
    (h : GenerateBlockTable env track range = some r) :
    ∃ buf, r.table
      = [{ type := DataType.kSamples, data := QVariant.samples (some buf), source := track.uid }] := by
  simp only [GenerateBlockTable, haudio, if_true] at h
  split at h
  · simp at h
  · next buf1 merged1 heq =>
    have hm := blockLoop_merged env range _ _ _ heq
    simp only at hm
    simp only [Option.some.injEq] at h
    subst h
    subst hm
    exact ⟨buf1, rfl⟩

/-- C10, evaluated on the code: for the range [0,10) and an audio track whose one block
[0,4) evaluates to a table holding the side value 42 from node 5 and a sample buffer, the
block yields samples, the side value is still in the block's table after the samples were
taken, and the table `GenerateBlockTable` returns holds the assembled samples entry of the
track and nothing else: the side value is not in it. -/
theorem GenerateBlockTable_drops_side_outputs :
    (NodeValueTable.Take (blockEnv0.GenerateTable blockA (range_for_block blockA range010))
        DataType.kSamples).1.toSamples = some smpThrees
    ∧ (NodeValueTable.Take (blockEnv0.GenerateTable blockA (range_for_block blockA range010))
        DataType.kSamples).2 = [sideValue]
    ∧ NodeValueTable.Merge [[], [sideValue]] = [sideValue]
    ∧ (GenerateBlockTable blockEnv0 trackA range010).map
        (fun r => r.table.map (fun v => (v.type, v.source))) = some [(DataType.kSamples, 12)]
    ∧ (GenerateBlockTable blockEnv0 trackA range010).map
        (fun r => decide (sideValue ∈ r.table)) = some false := by
  refine ⟨?_, ?_, ?_, ?_, ?_⟩ <;> decide!

/-! ### Disk frame cache lookup -/

/-- C11 as stated fails: a 1920x1080 frame stored at divider 1, requested with the viewer at
divider 2, comes back as a texture declared 3840x2160 at divider 2, not 960x540. -/
theorem GetCachedFrame_not_halved :
    (GetCachedFrame cachedEnv "/tmp/cache" vpHalf 0 "org.olivevideoeditor.Olive.videoinput" 0).1
        = QVariant.texture (some
            { uid := 0, params := { vp0 with width := 3840, height := 2160, divider := 2 }
              pixels := [1, 2, 3, 4] })
    ∧ ¬ ∃ tex : Texture,
        (GetCachedFrame cachedEnv "/tmp/cache" vpHalf 0
            "org.olivevideoeditor.Olive.videoinput" 0).1 = QVariant.texture (some tex)
          ∧ tex.params.width = frameStored.width / 2
          ∧ tex.params.height = frameStored.height / 2 := by
  have h : (GetCachedFrame cachedEnv "/tmp/cache" vpHalf 0
      "org.olivevideoeditor.Olive.videoinput" 0).1
        = QVariant.texture (some
            { uid := 0, params := { vp0 with width := 3840, height := 2160, divider := 2 }
              pixels := [1, 2, 3, 4] }) := by decide!
  refine ⟨h, ?_⟩
  rintro ⟨tex, h1, h2, -⟩
  rw [h] at h1
  simp only [QVariant.texture.injEq, Option.some.injEq] at h1
  subst h1
  revert h2
  decide

/-- C11 amended: for the video-input node and a non-empty disk cache path, when the disk cache
holds a frame for the computed hash, `GetCachedFrame` returns a texture whose declared width
and height are the loaded frame's width and height multiplied by the viewer's divider, whose
divider is the viewer's divider, whose other parameters are the loaded frame's, and whose
pixel data is the loaded frame's data untouched. -/
theorem GetCachedFrame_scales_by_divider (env : CachedFrameEnv) (cache : String)
    (video_params : VideoParams) (textures : Nat) (time : rational) (f : Frame)
    (hpath : cache.isEmpty = false)
    (hload : env.LoadCacheFrame cache
      (env.Hash "org.olivevideoeditor.Olive.videoinput" video_params time) = some f) :
    ∃ tex : Texture,
      (GetCachedFrame env cache video_params textures
          "org.olivevideoeditor.Olive.videoinput" time).1 = QVariant.texture (some tex)
      ∧ tex.params.width = f.width * video_params.divider
      ∧ tex.params.height = f.height * video_params.divider
      ∧ tex.params.divider = video_params.divider
      ∧ tex.params.format = f.params.format
      ∧ tex.params.time_base = f.params.time_base
      ∧ tex.pixels = f.data := by
  have h : (GetCachedFrame env cache video_params textures
      "org.olivevideoeditor.Olive.videoinput" time).1
      = QVariant.texture (some
          { uid := textures
            params := { f.params with
              width := f.width * video_params.divider
              height := f.height * video_params.divider
              divider := video_params.divider }
            pixels := f.data }) := by
    simp only [GetCachedFrame, hpath, hload, Bool.not_false, decide_True, Bool.and_self, if_true]
  exact ⟨_, h, rfl, rfl, rfl, rfl, rfl, rfl⟩

/-- Witness for the amended C11: the stored 1920x1080 frame requested at divider 2. -/
theorem GetCachedFrame_scales_by_divider_witness :
    ∃ tex : Texture,
      (GetCachedFrame cachedEnv "/tmp/cache" vpHalf 7
          "org.olivevideoeditor.Olive.videoinput" (1 / 2)).1 = QVariant.texture (some tex)
      ∧ tex.params.width = frameStored.width * vpHalf.divider
      ∧ tex.params.height = frameStored.height * vpHalf.divider
      ∧ tex.params.divider = vpHalf.divider
      ∧ tex.params.format = frameStored.params.format
      ∧ tex.params.time_base = frameStored.params.time_base
      ∧ tex.pixels = frameStored.data :=
  GetCachedFrame_scales_by_divider cachedEnv "/tmp/cache" vpHalf 7 (1 / 2) frameStored
    (by decide) rfl

/-! ### Still-image cache: the time in the key -/

theorem wantEntry_still (env : FootageEnv) (cm : Nat) (vp : VideoParams) (stream : Stream)
    (t1 t2 : rational) (h : stream.is_still = true) :
    wantEntry env cm vp stream t1 = wantEntry env cm vp stream t2 := by
  simp [wantEntry, h]

theorem wantEntry_time (env : FootageEnv) (cm : Nat) (vp : VideoParams) (stream : Stream)
    (t : rational) (h : stream.is_still = false) :
    (wantEntry env cm vp stream t).time = t := by
  simp [wantEntry, h]

theorem CompareEntryMetadata_time (a b : Entry)
    (h : StillImageCache.CompareEntryMetadata a b = true) : a.time = b.time := by
  simp only [StillImageCache.CompareEntryMetadata, Bool.and_eq_true, decide_eq_true_eq] at h
  exact h.2

theorem CompareEntryMetadata_with_texture (a : Entry) (t : Option Texture) :
    StillImageCache.CompareEntryMetadata a { a with texture := t } = true := by
  simp [StillImageCache.CompareEntryMetadata]

/-- A call that finds a committed entry with a texture returns that texture and leaves the
state as it is, whatever the decoder and the render context would do. -/
theorem ProcessVideoFootage_hit (env : FootageEnv) (cm : Nat) (vp : VideoParams) (fuel : Nat)
    (s : FootageState) (stream : Stream) (t : rational) (e : Entry) (tex : Texture)
    (hfind : s.still.entries.find?
      (fun x => StillImageCache.CompareEntryMetadata (wantEntry env cm vp stream t) x) = some e)
    (htex : e.texture = some tex) :
    ProcessVideoFootage env cm vp fuel s stream t = some (some tex, s) := by
  simp only [ProcessVideoFootage, hfind, htex]

/-- What a successful call leaves behind, in a well-formed cache: a committed entry with the
returned texture is the first match of the call's fingerprint. -/
theorem ProcessVideoFootage_leaves_entry (env : FootageEnv) (cm : Nat) (vp : VideoParams)
    (fuel : Nat) (s s1 : FootageState) (stream : Stream) (t : rational) (tex : Texture)
    (hwf : s.still.wellFormed = true)
    (h : ProcessVideoFootage env cm vp fuel s stream t = some (some tex, s1)) :
    ∃ e, s1.still.entries.find?
        (fun x => StillImageCache.CompareEntryMetadata (wantEntry env cm vp stream t) x) = some e
      ∧ e.texture = some tex := by
  simp only [StillImageCache.wellFormed, Bool.and_eq_true, List.all_eq_true] at hwf
  obtain ⟨hent, hpend⟩ := hwf
  cases hfind : s.still.entries.find?
      (fun x => StillImageCache.CompareEntryMetadata (wantEntry env cm vp stream t) x) with
  | some e =>
    have hmem := List.mem_of_find?_eq_some hfind
    have hsome := hent e hmem
    obtain ⟨tx, htx⟩ := Option.isSome_iff_exists.mp hsome
    rw [ProcessVideoFootage_hit env cm vp fuel s stream t e tx hfind htx] at h
    simp only [Option.some.injEq, Prod.mk.injEq] at h
    obtain ⟨rfl, rfl⟩ := h
    exact ⟨e, hfind, htx⟩
  | none =>
    cases hp : s.still.pending.find?
        (fun x => StillImageCache.CompareEntryMetadata (wantEntry env cm vp stream t) x) with
    | some e =>
      have hmem := List.mem_of_find?_eq_some hp
      have hnone : e.texture = none := Option.isNone_iff_eq_none.mp (hpend e hmem)
      have hw : ∀ n, waitForPending e n = none := by
        intro n
        induction n with
        | zero => rfl
        | succ n ih => simp only [waitForPending, hnone]; exact ih
      have hw := hw fuel
      simp [ProcessVideoFootage, hfind, hp, hw] at h
    | none =>
      simp only [ProcessVideoFootage, hfind, hp] at h
      rcases hr : ResolveDecoderFromInput env.Open s.decoders (some stream) with ⟨d, ds⟩
      rw [hr] at h
      cases d with
      | none => simp at h
      | some d =>
        simp only at h
        cases hf : env.RetrieveVideo d t vp.divider with
        | none => rw [hf] at h; simp at h
        | some frame =>
          rw [hf] at h
          simp only [Option.some.injEq, Prod.mk.injEq] at h
          obtain ⟨rfl, rfl⟩ := h
          simp only [StillImageCache.PushEntry, StillImageCache.RemovePending,
            StillImageCache.PushPending, List.find?_append, hfind, Option.none_or,
            List.find?_cons, CompareEntryMetadata_with_texture, List.find?_nil]
          exact ⟨_, rfl, rfl⟩

/-- C12: in a well-formed still cache, after a `ProcessVideoFootage` call for a single-image
still stream has returned a texture at time t1, a later call for the same stream, colour
manager and video parameters at any time t2 returns the same texture and leaves the whole
state as it is (committed and pending lists, decoder cache and its construction and open
records, texture count), whatever the decoder and the render context would do if asked: it
returns from the scan of the committed entries.  For a stream that is not a still, an entry
matches the fingerprints of two calls only when their times are equal. -/
theorem ProcessVideoFootage_still_ignores_time (env : FootageEnv) (cm : Nat) (vp : VideoParams)
    (fuel fuel2 : Nat) (s s1 : FootageState) (stream : Stream) (t1 t2 : rational)
    (tex : Texture)
    (hstill : stream.is_still = true) (hwf : s.still.wellFormed = true)
    (h1 : ProcessVideoFootage env cm vp fuel s stream t1 = some (some tex, s1)) :
    (∀ (o : Decoder → Stream → Bool) (r : Decoder → rational → Int → Option Frame)
        (b : Nat → Nat → Texture → Texture → List Nat),
        ProcessVideoFootage { env with Open := o, RetrieveVideo := r, BlitColorManaged := b }
          cm vp fuel2 s1 stream t2 = some (some tex, s1))
    ∧ (∀ (other : Stream) (e : Entry), other.is_still = false →
        StillImageCache.CompareEntryMetadata (wantEntry env cm vp other t1) e = true →
        StillImageCache.CompareEntryMetadata (wantEntry env cm vp other t2) e = true →
        t1 = t2) := by
  constructor
  · intro o r b
    obtain ⟨e, hfind, htex⟩ := ProcessVideoFootage_leaves_entry env cm vp fuel s s1 stream t1 tex hwf h1
    rw [wantEntry_still env cm vp stream t1 t2 hstill] at hfind
    exact ProcessVideoFootage_hit _ cm vp fuel2 s1 stream t2 e tex hfind htex
  · intro other e hns c1 c2
    have e1 := CompareEntryMetadata_time _ _ c1
    have e2 := CompareEntryMetadata_time _ _ c2
    rw [wantEntry_time env cm vp other t1 hns] at e1
    rw [wantEntry_time env cm vp other t2 hns] at e2
    rw [e1, e2]

/-- Witness for C12: from the empty cache a first call for the still stream at time 0 decodes;
a later call at time 5, with a decoder that would not open, returns the same texture from the
same state. -/
theorem ProcessVideoFootage_still_ignores_time_witness :
    ∃ tex s1, ProcessVideoFootage envGood 0 vp0 1 footage0 streamStill 0 = some (some tex, s1)
      ∧ ProcessVideoFootage envNoOpen 0 vp0 1 s1 streamStill 5 = some (some tex, s1) := by
  have h1 : ProcessVideoFootage envGood 0 vp0 1 footage0 streamStill 0
      = some (some { uid := 1, params := { frame0.params with format := vp0.format }
                     pixels := [5, 6] },
          { still :=
              { entries := [{ wantEntry envGood 0 vp0 streamStill 0 with
                              texture := some { uid := 1
                                                params := { frame0.params with format := vp0.format }
                                                pixels := [5, 6] } }]
                pending := [] }
            decoders := { cache := [(8, { uid := 0, kind := 1 })], created := 1, opened := [(0, 8)] }
            textures := 2 }) := by decide!
  exact ⟨_, _, h1,
    (ProcessVideoFootage_still_ignores_time envGood 0 vp0 1 1 footage0 _ streamStill 0 5 _
      rfl (by decide) h1).1 envNoOpen.Open envNoOpen.RetrieveVideo envNoOpen.BlitColorManaged⟩

/-! ### Audio block assembly: where the copy lands -/

/-- The end of the region a block may write is no later than the sample of the block's end
inside the range. -/
theorem region_end_le (p : AudioParams) (b : Block) (range : TimeRange) (n : Int) :
    destination_offset p b range + copy_length p b range n
      ≤ p.time_to_samples (min b.out_ range.out_ - range.in_) := by
  have hmin : copy_length p b range n ≤ max_dest_sz p b range := min_le_left _ _
  have hadd : destination_offset p b range + max_dest_sz p b range
      ≤ p.time_to_samples (min b.out_ range.out_ - range.in_) := by
    simp only [destination_offset, max_dest_sz, AudioParams.time_to_samples, range_for_block,
      TimeRange.length]
    refine le_trans (Int.le_floor_add _ _) (le_of_eq ?_)
    congr 1
    ring
  omega

/-- C16: with a sample rate that is not negative and time_to_samples(t) = floor(t *
sample_rate), for every range and every block (overlapping the range or not) the destination
offset is not negative and offset + copy_length does not pass
time_to_samples(range.length()), whatever the block's sample count; and for two blocks with
disjoint extents no sample index lies in both written regions. -/
theorem copy_within_destination (p : AudioParams) (range : TimeRange) (b1 b2 : Block)
    (n1 n2 : Int) (hsr : 0 ≤ p.sample_rate)
    (hdisj : b1.out_ ≤ b2.in_ ∨ b2.out_ ≤ b1.in_) :
    (0 ≤ destination_offset p b1 range
      ∧ destination_offset p b1 range + copy_length p b1 range n1
          ≤ p.time_to_samples range.length)
    ∧ (0 ≤ destination_offset p b2 range
      ∧ destination_offset p b2 range + copy_length p b2 range n2
          ≤ p.time_to_samples range.length)
    ∧ ∀ i : Int,
        ¬ ((destination_offset p b1 range ≤ i
              ∧ i < destination_offset p b1 range + copy_length p b1 range n1)
          ∧ (destination_offset p b2 range ≤ i
              ∧ i < destination_offset p b2 range + copy_length p b2 range n2)) := by
  have hq : (0 : ℚ) ≤ (p.sample_rate : ℚ) := by exact_mod_cast hsr
  have hoff : ∀ b : Block, 0 ≤ destination_offset p b range := by
    intro b
    simp only [destination_offset, AudioParams.time_to_samples, range_for_block]
    exact Int.floor_nonneg.mpr (mul_nonneg (sub_nonneg.mpr (le_max_right _ _)) hq)
  have hend : ∀ (b : Block) (n : Int),
      destination_offset p b range + copy_length p b range n ≤ p.time_to_samples range.length := by
    intro b n
    refine le_trans (region_end_le p b range n) ?_
    simp only [AudioParams.time_to_samples, TimeRange.length]
    exact Int.floor_mono
      (mul_le_mul_of_nonneg_right (sub_le_sub_right (min_le_right _ _) _) hq)
  have hbefore : ∀ (b c : Block) (n : Int), b.out_ ≤ c.in_ →
      destination_offset p b range + copy_length p b range n ≤ destination_offset p c range := by
    intro b c n hbc
    refine le_trans (region_end_le p b range n) ?_
    simp only [destination_offset, AudioParams.time_to_samples, range_for_block]
    refine Int.floor_mono (mul_le_mul_of_nonneg_right (sub_le_sub_right ?_ _) hq)
    exact le_trans (min_le_left _ _) (le_trans hbc (le_max_left _ _))
  refine ⟨⟨hoff b1, hend b1 n1⟩, ⟨hoff b2, hend b2 n2⟩, ?_⟩
  rintro i ⟨⟨a1, a2⟩, ⟨c1, c2⟩⟩
  rcases hdisj with h | h
  · have := hbefore b1 b2 n1 h
    omega
  · have := hbefore b2 b1 n2 h
    omega

/-- Witness for C16: the blocks [0,4) and [4,10), both overlapping the range [0,10), at two
samples per second, with 8 and 6 samples. -/
theorem copy_within_destination_witness :
    (0 ≤ destination_offset ap2 blockA range010
      ∧ destination_offset ap2 blockA range010 + copy_length ap2 blockA range010 8
          ≤ ap2.time_to_samples range010.length)
    ∧ (0 ≤ destination_offset ap2 blockB range010
      ∧ destination_offset ap2 blockB range010 + copy_length ap2 blockB range010 6
          ≤ ap2.time_to_samples range010.length)
    ∧ ∀ i : Int,
        ¬ ((destination_offset ap2 blockA range010 ≤ i
              ∧ i < destination_offset ap2 blockA range010 + copy_length ap2 blockA range010 8)
          ∧ (destination_offset ap2 blockB range010 ≤ i
              ∧ i < destination_offset ap2 blockB range010 + copy_length ap2 blockB range010 6)) :=
  copy_within_destination ap2 range010 blockA blockB 8 6 (by decide)
    (Or.inl (by norm_num [blockA, blockB]))

/-- C15: one round of the loop on an overlapping, well-formed block.  The block is evaluated
over the sub-range [max(block.in, range.in), min(block.out, range.out)).  When the evaluation
yields no samples the round leaves the destination (and the merged table) as it was.  When
it yields samples, the round returns a destination of the same size in which the first
copy_length = min(time_to_samples(sub-range length), sample count) samples of the block
buffer as the speed handling left it stand, in order, from index
time_to_samples(sub-range.in - range.in) on, and every sample outside that region is what it
was before. -/
theorem blockStep_copies (env : BlockEnv) (range : TimeRange) (buf : SampleBuffer)
    (merged : NodeValueTable) (b : Block)
    (hsr : 0 ≤ env.audio_params.sample_rate) (hb : b.in_ ≤ b.out_)
    (hr : range.in_ ≤ range.out_) (h1 : b.in_ < range.out_) (h2 : range.in_ < b.out_)
    (hlen : (buf.data.length : Int) = env.audio_params.time_to_samples range.length) :
    range_for_block b range = { in_ := max b.in_ range.in_, out_ := min b.out_ range.out_ }
    ∧ destination_offset env.audio_params b range
        = env.audio_params.time_to_samples ((range_for_block b range).in_ - range.in_)
    ∧ match (NodeValueTable.Take (env.GenerateTable b (range_for_block b range))
          DataType.kSamples).1.toSamples with
      | none => blockStep env range (buf, merged) b = some (buf, merged)
      | some smp =>
        ∃ buf1, blockStep env range (buf, merged) b = some (buf1, merged)
          ∧ buf1.data.length = buf.data.length
          ∧ copy_length env.audio_params b range (applySpeed env b smp).sample_count
              = min (env.audio_params.time_to_samples (range_for_block b range).length)
                  (applySpeed env b smp).sample_count
          ∧ (∀ k : Nat,
              (k : Int) < copy_length env.audio_params b range (applySpeed env b smp).sample_count →
              buf1.data[(destination_offset env.audio_params b range).toNat + k]?
                = (applySpeed env b smp).data[k]?)
          ∧ (∀ i : Nat,
              ((i : Int) < destination_offset env.audio_params b range
                ∨ destination_offset env.audio_params b range
                    + copy_length env.audio_params b range (applySpeed env b smp).sample_count
                  ≤ (i : Int)) →
              buf1.data[i]? = buf.data[i]?) := by
  refine ⟨rfl, rfl, ?_⟩
  obtain ⟨k0, k1, k2⟩ :=
    sub_range_in_bounds env.audio_params b range hsr hb hr (le_of_lt h1) (le_of_lt h2)
  cases hs : (NodeValueTable.Take (env.GenerateTable b (range_for_block b range))
      DataType.kSamples).1.toSamples with
  | none =>
    simp only
    unfold blockStep
    simp only [hs]
  | some smp =>
    simp only
    have hcl : copy_length env.audio_params b range (applySpeed env b smp).sample_count
        = min (max_dest_sz env.audio_params b range) (applySpeed env b smp).sample_count := rfl
    have hc0 : 0 ≤ copy_length env.audio_params b range (applySpeed env b smp).sample_count :=
      le_min k1 (by simp [SampleBuffer.sample_count])
    have hc1 : copy_length env.audio_params b range (applySpeed env b smp).sample_count
        ≤ ((applySpeed env b smp).data.length : Int) := min_le_right _ _
    have hc2 : destination_offset env.audio_params b range
        + copy_length env.audio_params b range (applySpeed env b smp).sample_count
        ≤ (buf.data.length : Int) := by
      have := min_le_left (max_dest_sz env.audio_params b range)
        (applySpeed env b smp).sample_count
      omega
    have hstep : blockStep env range (buf, merged) b = some
        ({ buf with
            data := buf.data.take (destination_offset env.audio_params b range).toNat
              ++ (applySpeed env b smp).data.take
                  (copy_length env.audio_params b range
                    (applySpeed env b smp).sample_count).toNat
              ++ buf.data.drop ((destination_offset env.audio_params b range).toNat
                  + (copy_length env.audio_params b range
                      (applySpeed env b smp).sample_count).toNat) },
          merged) := by
      unfold blockStep
      simp only [hs]
      rw [← hcl, SampleBuffer.set_some buf _ _ _ k0 hc0 hc1 hc2]
    have hA : (buf.data.take (destination_offset env.audio_params b range).toNat).length
        = (destination_offset env.audio_params b range).toNat := by
      rw [List.length_take]; omega
    have hB : ((applySpeed env b smp).data.take
        (copy_length env.audio_params b range (applySpeed env b smp).sample_count).toNat).length
        = (copy_length env.audio_params b range (applySpeed env b smp).sample_count).toNat := by
      rw [List.length_take]; omega
    refine ⟨_, hstep, ?_, rfl, ?_, ?_⟩
    · simp only [List.length_append, List.length_take, List.length_drop]
      omega
    · intro k hk
      simp only [List.append_assoc]
      rw [List.getElem?_append_right (by rw [hA]; omega), hA, Nat.add_sub_cancel_left,
        List.getElem?_append_left (by rw [hB]; omega),
        List.getElem?_take_of_lt (by omega)]
    · intro i hi
      rcases hi with hi | hi
      · simp only [List.append_assoc]
        rw [List.getElem?_append_left (by rw [hA]; omega),
          List.getElem?_take_of_lt (by omega)]
      · rw [List.getElem?_append_right (by
            rw [List.length_append, hA, hB]; omega),
          List.length_append, hA, hB, List.getElem?_drop]
        congr 1
        omega

/-- Witness for C15: the block [0,4) at speed 1 in the range [0,10) at two samples per
second, the destination holding twenty samples of value 9. -/
theorem blockStep_copies_witness :
    range_for_block blockA range010
        = { in_ := max blockA.in_ range010.in_, out_ := min blockA.out_ range010.out_ }
    ∧ destination_offset blockEnv0.audio_params blockA range010
        = blockEnv0.audio_params.time_to_samples
            ((range_for_block blockA range010).in_ - range010.in_)
    ∧ match (NodeValueTable.Take (blockEnv0.GenerateTable blockA (range_for_block blockA range010))
          DataType.kSamples).1.toSamples with
      | none => blockStep blockEnv0 range010 (bufNines, []) blockA = some (bufNines, [])
      | some smp =>
        ∃ buf1, blockStep blockEnv0 range010 (bufNines, []) blockA = some (buf1, [])
          ∧ buf1.data.length = bufNines.data.length
          ∧ copy_length blockEnv0.audio_params blockA range010
                (applySpeed blockEnv0 blockA smp).sample_count
              = min (blockEnv0.audio_params.time_to_samples
                      (range_for_block blockA range010).length)
                  (applySpeed blockEnv0 blockA smp).sample_count
          ∧ (∀ k : Nat,
              (k : Int) < copy_length blockEnv0.audio_params blockA range010
                (applySpeed blockEnv0 blockA smp).sample_count →
              buf1.data[(destination_offset blockEnv0.audio_params blockA range010).toNat + k]?
                = (applySpeed blockEnv0 blockA smp).data[k]?)
          ∧ (∀ i : Nat,
              ((i : Int) < destination_offset blockEnv0.audio_params blockA range010
                ∨ destination_offset blockEnv0.audio_params blockA range010
                    + copy_length blockEnv0.audio_params blockA range010
                        (applySpeed blockEnv0 blockA smp).sample_count
                  ≤ (i : Int)) →
              buf1.data[i]? = bufNines.data[i]?) :=
  blockStep_copies blockEnv0 range010 bufNines [] blockA (by decide)
    (by norm_num [blockA]) (by norm_num [range010]) (by norm_num [blockA, range010])
    (by norm_num [blockA, range010]) (by decide!)

/-- The round of the witness above evaluated: eight samples of value 3 land at the start of
the destination, the other twelve samples keep their value 9. -/
theorem blockStep_copies_evaluated :
    (NodeValueTable.Take (blockEnv0.GenerateTable blockA (range_for_block blockA range010))
        DataType.kSamples).1.toSamples = some smpThrees
    ∧ blockStep blockEnv0 range010 (bufNines, []) blockA
        = some ({ bufNines with data := List.replicate 8 3 ++ List.replicate 12 9 }, []) := by
  constructor <;> decide!

/-! ### Two concurrent calls -/

theorem callRun_returned (env : FootageEnv) (cm : Nat) (vp : VideoParams) (stream : Stream)
    (t : rational) (n : Nat) (v : Option Texture) (s : FootageState) :
    callRun env cm vp stream t n (CallState.returned v, s) = (CallState.returned v, s) := by
  induction n with
  | zero => rfl
  | succ n ih => simp only [callRun, callStep]; exact ih

/-- The atomic steps, run by one caller alone, are the sequential function: whatever
`ProcessVideoFootage` returns is what the call has returned after `fuel + 2` steps. -/
theorem ProcessVideoFootage_as_steps (env : FootageEnv) (cm : Nat) (vp : VideoParams)
    (fuel : Nat) (s s1 : FootageState) (stream : Stream) (t : rational) (v : Option Texture)
    (h : ProcessVideoFootage env cm vp fuel s stream t = some (v, s1)) :
    callRun env cm vp stream t (fuel + 2) (CallState.start, s) = (CallState.returned v, s1) := by
  simp only [callRun, callStep]
  unfold ProcessVideoFootage at h
  unfold lookupStep
  simp only at h ⊢
  cases hv : (match s.still.entries.find?
      (fun e => StillImageCache.CompareEntryMetadata (wantEntry env cm vp stream t) e) with
    | some e => e.texture
    | none => none) with
  | some tex =>
    rw [hv] at h
    simp only [Option.some.injEq, Prod.mk.injEq] at h
    obtain ⟨rfl, rfl⟩ := h
    simp only [callStep]
    exact callRun_returned env cm vp stream t fuel _ _
  | none =>
    rw [hv] at h
    simp only at h ⊢
    cases hp : s.still.pending.find?
        (fun e => StillImageCache.CompareEntryMetadata (wantEntry env cm vp stream t) e) with
    | some e =>
      rw [hp] at h
      simp only [callStep, pollStep]
      cases fuel with
      | zero => simp [waitForPending] at h
      | succ n =>
        cases he : e.texture with
        | none =>
          have hw : ∀ k, waitForPending e k = none := by
            intro k
            induction k with
            | zero => rfl
            | succ k ih => simp only [waitForPending, he]; exact ih
          simp [hw] at h
        | some tex =>
          simp only [waitForPending, he, Option.map_some', Option.some.injEq,
            Prod.mk.injEq] at h
          obtain ⟨rfl, rfl⟩ := h
          exact callRun_returned env cm vp stream t (n + 1) _ _
    | none =>
      rw [hp] at h
      simp only [callStep, produceStep] at h ⊢
      rcases hr : ResolveDecoderFromInput env.Open s.decoders (some stream) with ⟨d, ds⟩
      rw [hr] at h
      cases d with
      | none =>
        simp only [Option.some.injEq, Prod.mk.injEq] at h
        obtain ⟨rfl, rfl⟩ := h
        simp only [StillImageCache.PushPending, hr]
        exact callRun_returned env cm vp stream t fuel _ _
      | some d =>
        simp only at h
        cases hf : env.RetrieveVideo d t vp.divider with
        | none =>
          rw [hf] at h
          simp only [Option.some.injEq, Prod.mk.injEq] at h
          obtain ⟨rfl, rfl⟩ := h
          simp only [StillImageCache.PushPending, hr, hf]
          exact callRun_returned env cm vp stream t fuel _ _
        | some frame =>
          rw [hf] at h
          simp only [Option.some.injEq, Prod.mk.injEq] at h
          obtain ⟨rfl, rfl⟩ := h
          simp only [StillImageCache.PushPending, hr, hf]
          exact callRun_returned env cm vp stream t fuel _ _

/-- A caller asleep in the wait loop on an element whose texture field is null is still
there after any schedule: neither its own polls nor the other caller's steps change the
element it reads. -/
theorem TwoCalls.second_waits_forever (env : FootageEnv) (cm : Nat) (vp : VideoParams)
    (stream : Stream) (t : rational) (e : Entry) (he : e.texture = none)
    (schedule : List Caller) :
    ∀ sys : TwoCalls, sys.second = CallState.waiting e →
      (TwoCalls.run env cm vp stream t sys schedule).second = CallState.waiting e := by
  induction schedule with
  | nil => intro sys h; exact h
  | cons who rest ih =>
    intro sys h
    simp only [TwoCalls.run, List.foldl_cons]
    apply ih
    cases who with
    | first => simp only [TwoCalls.step, h]
    | second => simp only [TwoCalls.step, h, callStep, pollStep, he]

/-- A caller that has returned stays returned, with the same texture pointer. -/
theorem TwoCalls.first_stays_returned (env : FootageEnv) (cm : Nat) (vp : VideoParams)
    (stream : Stream) (t : rational) (v : Option Texture) (schedule : List Caller) :
    ∀ sys : TwoCalls, sys.first = CallState.returned v →
      (TwoCalls.run env cm vp stream t sys schedule).first = CallState.returned v := by
  induction schedule with
  | nil => intro sys h; exact h
  | cons who rest ih =>
    intro sys h
    simp only [TwoCalls.run, List.foldl_cons]
    apply ih
    cases who with
    | first => simp only [TwoCalls.step, h, callStep]
    | second => simp only [TwoCalls.step, h]

theorem TwoCalls.run_append (env : FootageEnv) (cm : Nat) (vp : VideoParams)
    (stream : Stream) (t : rational) (sys : TwoCalls) (l1 l2 : List Caller) :
    TwoCalls.run env cm vp stream t sys (l1 ++ l2)
      = TwoCalls.run env cm vp stream t (TwoCalls.run env cm vp stream t sys l1) l2 := by
  simp only [TwoCalls.run, List.foldl_append]

/-- C13, evaluated on the code: two calls for stream 7 at time 0 on empty caches, with a
decoder that opens and decodes.  The first call looks up and pushes its placeholder, the
second looks up and finds that placeholder, the first decodes, uploads and commits: the
first call has returned texture 1, one decode and upload took place (two textures created),
the committed list holds the entry with texture 1 and the pending list is empty.  The second
call is asleep in its wait loop on the placeholder it found, whose texture field is null,
and after every further schedule it still is: it never returns the producer's texture. -/
theorem ProcessVideoFootage_waiter_never_returns :
    TwoCalls.run envGood 0 vp0 stream7 0 twoCalls0 [Caller.first, Caller.second, Caller.first]
        = { shared :=
              { still :=
                  { entries := [{ wantEntry envGood 0 vp0 stream7 0 with texture := some textureA }]
                    pending := [] }
                decoders :=
                  { cache := [(7, { uid := 0, kind := 1 })], created := 1, opened := [(0, 7)] }
                textures := 2 }
            first := CallState.returned (some textureA)
            second := CallState.waiting (wantEntry envGood 0 vp0 stream7 0) }
    ∧ (wantEntry envGood 0 vp0 stream7 0).texture = none
    ∧ ∀ schedule : List Caller,
        (TwoCalls.run envGood 0 vp0 stream7 0 twoCalls0
            ([Caller.first, Caller.second, Caller.first] ++ schedule)).second
          = CallState.waiting (wantEntry envGood 0 vp0 stream7 0)
        ∧ (TwoCalls.run envGood 0 vp0 stream7 0 twoCalls0
            ([Caller.first, Caller.second, Caller.first] ++ schedule)).first
          = CallState.returned (some textureA) := by
  have h0 : TwoCalls.run envGood 0 vp0 stream7 0 twoCalls0
      [Caller.first, Caller.second, Caller.first]
        = { shared :=
              { still :=
                  { entries := [{ wantEntry envGood 0 vp0 stream7 0 with texture := some textureA }]
                    pending := [] }
                decoders :=
                  { cache := [(7, { uid := 0, kind := 1 })], created := 1, opened := [(0, 7)] }
                textures := 2 }
            first := CallState.returned (some textureA)
            second := CallState.waiting (wantEntry envGood 0 vp0 stream7 0) } := by decide!
  refine ⟨h0, rfl, ?_⟩
  intro schedule
  rw [TwoCalls.run_append, h0]
  exact ⟨TwoCalls.second_waits_forever envGood 0 vp0 stream7 0 _ rfl schedule _ rfl,
    TwoCalls.first_stays_returned envGood 0 vp0 stream7 0 _ schedule _ rfl⟩

/-! ### Per-sample audio synthesis -/

theorem updateValues_evaluated (env : SamplesEnv) (node : SamplesNode) (time : rational)
    (vals : List (String × NodeValue)) :
    ∀ (db : NodeValueDatabase) (ev : List (Nat × TimeRange)),
      (updateValues env node time vals (db, ev)).2 = ev ++ evaluatedInputs node time vals := by
  induction vals with
  | nil => intro db ev; simp [updateValues, evaluatedInputs]
  | cons p rest ih =>
    intro db ev
    obtain ⟨key, v⟩ := p
    cases hk : node.GetInputWithID key with
    | none => simp only [updateValues, evaluatedInputs, hk]; exact ih _ _
    | some input =>
      simp only [updateValues, evaluatedInputs, hk]
      rw [ih]
      simp

theorem sampleLoop_fold (env : SamplesEnv) (node : SamplesNode) (range : TimeRange)
    (job : SampleJob) (input : SampleBuffer) (l : List Nat) :
    ∀ st : SampleLoop,
      (l.foldl (sampleStep env node range job input) st).calls
          = st.calls ++ l.map (roundFor env node range job)
      ∧ (l.foldl (sampleStep env node range job input) st).output_buffer.data.length
          = st.output_buffer.data.length
      ∧ (l.foldl (sampleStep env node range job input) st).output_buffer.audio_params
          = st.output_buffer.audio_params := by
  induction l with
  | nil => intro st; simp
  | cons i rest ih =>
    intro st
    simp only [List.foldl_cons, List.map_cons]
    obtain ⟨h1, h2, h3⟩ := ih (sampleStep env node range job input st i)
    refine ⟨?_, ?_, ?_⟩
    · rw [h1]
      simp only [sampleStep, roundFor, updateValues_evaluated, List.nil_append,
        List.append_assoc, List.singleton_append]
    · rw [h2]; simp [sampleStep]
    · rw [h3]; simp [sampleStep]

/-- What `ProcessSamples` does for an allocated input buffer of n samples: one round for each
index 0..n-1 in increasing order, the named inputs and the globals of round i evaluated over
the instant `this_sample_time` of i, which is computed from i afresh through doubles; the
returned buffer has the input's audio parameters and n samples. -/
theorem ProcessSamples_rounds (env : SamplesEnv) (node : SamplesNode) (range : TimeRange)
    (job : SampleJob) (input : SampleBuffer)
    (hs : job.samples = some input) (ha : job.is_allocated = true) :
    (ProcessSamples env node range job).2
        = (List.range input.data.length).map (roundFor env node range job)
    ∧ ∃ out, (ProcessSamples env node range job).1 = QVariant.samples (some out)
        ∧ out.audio_params = input.audio_params
        ∧ out.data.length = input.data.length := by
  obtain ⟨h1, h2, h3⟩ := sampleLoop_fold env node range job input (List.range input.data.length)
    { value_db := []
      output_buffer := SampleBuffer.CreateAllocated env.junk input.audio_params input.sample_count
      calls := [] }
  simp only [ProcessSamples, hs, ha, Bool.not_true, Bool.false_eq_true, if_false]
  refine ⟨by rw [h1]; simp, _, rfl, ?_, ?_⟩
  · rw [h3]; rfl
  · rw [h2]; simp [SampleBuffer.CreateAllocated, SampleBuffer.sample_count]

/-- The time of a sample depends on the start of the range only through its double. -/
theorem this_sample_time_of_toDouble (ops : DoubleOps) (r1 r2 : TimeRange) (sample_rate i : Int)
    (h : ops.toDouble r1.in_ = ops.toDouble r2.in_) :
    this_sample_time ops r1 sample_rate i = this_sample_time ops r2 sample_rate i := by
  simp only [this_sample_time, h]

/-- Two different starts with the same double cannot both get their exact time at index 0. -/
theorem this_sample_time_collision (ops : DoubleOps) (r1 r2 : TimeRange) (sample_rate : Int)
    (hne : r1.in_ ≠ r2.in_) (h : ops.toDouble r1.in_ = ops.toDouble r2.in_) :
    ¬ (this_sample_time ops r1 sample_rate 0 = r1.in_ + (0 : ℚ) / (sample_rate : ℚ)
      ∧ this_sample_time ops r2 sample_rate 0 = r2.in_ + (0 : ℚ) / (sample_rate : ℚ)) := by
  rintro ⟨h1, h2⟩
  apply hne
  rw [zero_div, add_zero] at h1 h2
  rw [← h1, ← h2]
  exact this_sample_time_of_toDouble ops r1 r2 sample_rate 0 h

/-- C14, evaluated on the code: whatever the double operations are, there is a start of the
range for which the time at which `ProcessSamples` evaluates the globals of the round for
index 0 is not range.in + 0 / sample_rate: the time is computed from the double of range.in,
and two different starts share a double. -/
theorem ProcessSamples_time_not_exact (env : SamplesEnv) (node : SamplesNode) :
    ∃ range : TimeRange, ∃ c ∈ (ProcessSamples env node range sampleJobOne).2,
      c.index = 0
      ∧ c.globals.in_ ≠ range.in_ + (c.index : ℚ) / (env.audio_params.sample_rate : ℚ) := by
  obtain ⟨x, y, hxy, hd⟩ := Finite.exists_ne_map_eq_of_infinite env.ops.toDouble
  have hcalls : ∀ r : TimeRange, (ProcessSamples env node r sampleJobOne).2
      = [roundFor env node r sampleJobOne 0] := by
    intro r
    rw [(ProcessSamples_rounds env node r sampleJobOne _ rfl rfl).1]
    rfl
  have hsame : this_sample_time env.ops { in_ := x, out_ := x } env.audio_params.sample_rate 0
      = this_sample_time env.ops { in_ := y, out_ := y } env.audio_params.sample_rate 0 :=
    this_sample_time_of_toDouble env.ops _ _ _ _ hd
  by_cases hx : this_sample_time env.ops { in_ := x, out_ := x } env.audio_params.sample_rate 0 = x
  · refine ⟨{ in_ := y, out_ := y }, roundFor env node { in_ := y, out_ := y } sampleJobOne 0,
      by rw [hcalls]; exact List.mem_singleton_self _, rfl, ?_⟩
    simp only [roundFor, Nat.cast_zero, Int.cast_zero, zero_div, add_zero]
    intro hy
    apply hxy
    rw [← hx, ← hy]
    exact hsame
  · refine ⟨{ in_ := x, out_ := x }, roundFor env node { in_ := x, out_ := x } sampleJobOne 0,
      by rw [hcalls]; exact List.mem_singleton_self _, rfl, ?_⟩
    simp only [roundFor, Nat.cast_zero, Int.cast_zero, zero_div, add_zero]
    exact hx

/-- The sample loop evaluated: a buffer of three samples, the range starting at 1, three
samples per second, and double operations that are exact on thirds.  Three rounds, for the
indices 0, 1, 2 in this order; the input named gain is evaluated in each; the output holds
what the callback stored. -/
theorem ProcessSamples_evaluated :
    ProcessSamples samplesEnv0 samplesNode0 { in_ := 1, out_ := 2 } sampleJob0
      = (QVariant.samples (some { audio_params := ap2, data := [0, 1, 2] }),
          [{ index := 0, inputs := [(21, { in_ := 1, out_ := 1 })]
             globals := { in_ := 1, out_ := 1 } },
           { index := 1, inputs := [(21, { in_ := 4 / 3, out_ := 4 / 3 })]
             globals := { in_ := 4 / 3, out_ := 4 / 3 } },
           { index := 2, inputs := [(21, { in_ := 5 / 3, out_ := 5 / 3 })]
             globals := { in_ := 5 / 3, out_ := 5 / 3 } }]) := by
  decide!

/-! ### The shape of the still cache is kept -/

theorem mem_of_mem_removeFirstMatch (e x : Entry) (l : List Entry)
    (h : x ∈ removeFirstMatch e l) : x ∈ l := by
  induction l with
  | nil => simp [removeFirstMatch] at h
  | cons y rest ih =>
    simp only [removeFirstMatch] at h
    split at h
    · exact List.mem_cons_of_mem _ h
    · rcases List.mem_cons.mp h with rfl | h'
      · exact List.mem_cons_self _ _
      · exact List.mem_cons_of_mem _ (ih h')

/-- Every call leaves a well-formed still cache well-formed: committed entries carry a
texture, pending placeholders do not. -/
theorem ProcessVideoFootage_wellFormed (env : FootageEnv) (cm : Nat) (vp : VideoParams)
    (fuel : Nat) (s s1 : FootageState) (stream : Stream) (t : rational) (v : Option Texture)
    (hwf : s.still.wellFormed = true)
    (h : ProcessVideoFootage env cm vp fuel s stream t = some (v, s1)) :
    s1.still.wellFormed = true := by
  simp only [StillImageCache.wellFormed, Bool.and_eq_true, List.all_eq_true] at hwf ⊢
  obtain ⟨hent, hpend⟩ := hwf
  unfold ProcessVideoFootage at h
  simp only at h
  split at h
  · simp at h
  · simp only [Option.some.injEq, Prod.mk.injEq] at h
    rw [← h.2]
    exact ⟨hent, hpend⟩
  · rcases hr : ResolveDecoderFromInput env.Open s.decoders (some stream) with ⟨d, ds⟩
    rw [hr] at h
    have hpush : ∀ x ∈ s.still.pending ++ [wantEntry env cm vp stream t],
        x.texture.isNone = true := by
      intro x hx
      rcases List.mem_append.mp hx with hx | hx
      · exact hpend x hx
      · rw [List.mem_singleton.mp hx]; rfl
    cases d with
    | none =>
      simp only [Option.some.injEq, Prod.mk.injEq] at h
      rw [← h.2]
      exact ⟨hent, hpush⟩
    | some d =>
      simp only at h
      cases hf : env.RetrieveVideo d t vp.divider with
      | none =>
        rw [hf] at h
        simp only [Option.some.injEq, Prod.mk.injEq] at h
        rw [← h.2]
        exact ⟨hent, hpush⟩
      | some frame =>
        rw [hf] at h
        simp only [Option.some.injEq, Prod.mk.injEq] at h
        rw [← h.2]
        constructor
        · intro x hx
          simp only [StillImageCache.PushEntry, StillImageCache.RemovePending,
            StillImageCache.PushPending] at hx
          rcases List.mem_append.mp hx with hx | hx
          · exact hent x hx
          · rw [List.mem_singleton.mp hx]; rfl
        · intro x hx
          simp only [StillImageCache.PushEntry, StillImageCache.RemovePending,
            StillImageCache.PushPending] at hx
          exact hpush x (mem_of_mem_removeFirstMatch _ _ _ hx)

/-- In a well-formed still cache the element a call goes to sleep on has a null texture
field: with `TwoCalls.second_waits_forever`, a call that enters the wait loop never leaves. -/
theorem lookupStep_waiting_null (env : FootageEnv) (cm : Nat) (vp : VideoParams)
    (s : FootageState) (stream : Stream) (t : rational) (e : Entry)
    (hwf : s.still.wellFormed = true)
    (h : (lookupStep env cm vp s stream t).1 = CallState.waiting e) :
    e.texture = none := by
  simp only [StillImageCache.wellFormed, Bool.and_eq_true, List.all_eq_true] at hwf
  unfold lookupStep at h
  simp only at h
  split at h
  · simp at h
  · split at h
    · next e1 hp =>
      simp only [CallState.waiting.injEq] at h
      subst h
      exact Option.isNone_iff_eq_none.mp (hwf.2 e1 (List.mem_of_find?_eq_some hp))
    · simp at h

end Olive
